import Mathlib

/-!
# LeoCC netlink RTT-fluctuation monitor

A shallow embedding of `leocc/live_network/netlink/netlink.h`: the per-namespace
state `leocc_nl_ns`, the percentile reducer `mpf`, the event handler
`netlink_recv_msg` and the initialiser `leocc_nl_init_net`.

Machine integers are natural numbers; the places where the C arithmetic can wrap
(`u64` timestamp sums, the `u32` index product and the `u32` difference in `mpf`)
carry an explicit modulus. An array access is in bounds when the index is below
the length of the list that models the array; an access out of bounds makes the
operation return `none`. The text of an event is the C string that the parser
reads from the sixteen-byte field: it ends at the first NUL byte, which lies
beyond the field when the field holds none.
-/

namespace LeoCC

set_option maxRecDepth 100000

/-! ## Constants and machine arithmetic -/

/-- Capacity of the sample array (`#define RTT_SAMPLE_MAX 100`). -/
def RTT_SAMPLE_MAX : Nat := 100

/-- Largest `u32` value. -/
def U32_MAX : Nat := 4294967295

/-- Modulus of `u32` arithmetic. -/
def U32_MOD : Nat := 4294967296

/-- Modulus of `u64` arithmetic. -/
def U64_MOD : Nat := 18446744073709551616

/-- Lifetime of the global trigger in milliseconds
(`static const u32 global_reconfiguration_trigger_duration = 200`). -/
def global_reconfiguration_trigger_duration : Nat := 200

/-- Sum of two `u64` values as the machine computes it. -/
def u64_add (a b : Nat) : Nat := (a + b) % U64_MOD

/-- Product of two `u64` values as the machine computes it. -/
def u64_mul (a b : Nat) : Nat := (a * b) % U64_MOD

/-- Product of two `u32` values as the machine computes it. -/
def u32_mul (a b : Nat) : Nat := (a * b) % U32_MOD

/-- Difference of two `u32` values as the machine computes it. -/
def u32_sub (a b : Nat) : Nat := (a + U32_MOD - b) % U32_MOD

/-! ## Data model -/

/-- Wire record `struct rtt_data`. The text field `char rtt_value_microseconds[16]`
is the list of its bytes; `is_reconfig` follows it directly in memory. `trailing`
holds the bytes that follow the record in the message buffer; they are not part
of the record and are read only when neither the text field nor `is_reconfig`
contains a NUL byte. -/
structure rtt_data where
  sec : Nat
  usec : Nat
  rtt_value_microseconds : List Nat
  is_reconfig : Nat
  trailing : List Nat
deriving DecidableEq

/-- The sixteen bytes of the text field: the list cut to the declared size of the
array, or padded with NUL bytes up to it. -/
def text_bytes (data : rtt_data) : List Nat :=
  (data.rtt_value_microseconds ++ List.replicate 16 0).take 16

/-- The four bytes of a `u32` in memory, least significant first (little-endian
machine). -/
def u32_bytes (n : Nat) : List Nat :=
  [n % 256, n / 256 % 256, n / 65536 % 256, n / 16777216 % 256]

/-- The text of the field taken on its own: its bytes up to the first NUL, all
sixteen when it holds none. -/
def field_text (data : rtt_data) : List Char :=
  ((text_bytes data).takeWhile (fun b => b != 0)).map Char.ofNat

/-- The C string that a call `kstrtouint(data->rtt_value_microseconds, ...)`
reads: the bytes from the start of the text field up to the first NUL. When the
field holds no NUL the read runs on into the bytes of `is_reconfig`, and past
them into the bytes that follow the record. -/
def rtt_text (data : rtt_data) : List Char :=
  ((text_bytes data ++ u32_bytes data.is_reconfig ++ data.trailing).takeWhile
    (fun b => b != 0)).map Char.ofNat

/-- Per-network-namespace state `struct leocc_nl_ns`. The socket pointer is a
number, `0` standing for `NULL`. -/
structure leocc_nl_ns where
  nl_sk : Nat
  rtt_samples : List Nat
  reconfiguration_trigger_time_ms : Nat
  reconfiguration_rtt_ms : Nat
  rtt_sample_count : Nat
  local_rtt_sample_max : Nat
  local_rtt_sample_min : Nat
  min_rtt_fluctuation_collection : Bool
  reconfiguration_min_rtt : Nat
  reconfiguration_max_rtt : Nat
deriving DecidableEq

/-- The two module-wide variables that the header declares `extern`:
`bool global_reconfiguration_trigger` and `u32 min_rtt_fluctuation`, shared by
all contexts. -/
structure Globals where
  global_reconfiguration_trigger : Bool
  min_rtt_fluctuation : Nat
deriving DecidableEq

/-- The storage of a context is well formed: the sample array has its declared
size and the count of valid entries does not exceed it. -/
def wf (ns : leocc_nl_ns) : Prop :=
  ns.rtt_samples.length = RTT_SAMPLE_MAX ∧ ns.rtt_sample_count ≤ RTT_SAMPLE_MAX

instance (ns : leocc_nl_ns) : Decidable (wf ns) := by
  unfold wf; infer_instance

/-- Running-extrema property of a context: with an empty window the local
minimum is `U32_MAX` and the local maximum is 0; with a non-empty window the
local minimum is the least and the local maximum the greatest of the first
`rtt_sample_count` entries of `rtt_samples`. -/
def extrema_inv (ns : leocc_nl_ns) : Prop :=
  (ns.rtt_sample_count = 0 →
    ns.local_rtt_sample_min = U32_MAX ∧ ns.local_rtt_sample_max = 0) ∧
  (0 < ns.rtt_sample_count →
    (ns.local_rtt_sample_min ∈ ns.rtt_samples.take ns.rtt_sample_count ∧
      ∀ x ∈ ns.rtt_samples.take ns.rtt_sample_count, ns.local_rtt_sample_min ≤ x) ∧
    (ns.local_rtt_sample_max ∈ ns.rtt_samples.take ns.rtt_sample_count ∧
      ∀ x ∈ ns.rtt_samples.take ns.rtt_sample_count, x ≤ ns.local_rtt_sample_max))

instance (ns : leocc_nl_ns) : Decidable (extrema_inv ns) := by
  unfold extrema_inv; infer_instance

/-! ## Library routines used by the handler -/

/-- Value of a run of decimal digits, most significant first. -/
def digits_value (ds : List Char) : Nat :=
  ds.foldl (fun acc c => 10 * acc + (c.toNat - 48)) 0

/-- Modelled from the spec: `kstrtouint(s, 10, &res)` is a kernel library
routine, not part of the sources. It parses the text as an unsigned decimal
integer: an optional leading plus sign, at least one decimal digit, an optional
single trailing newline and nothing else; the value has to fit a `u32`. The
result is `some v` when the routine returns `0` and stores `v`, and `none` when
it returns an error code. -/
def kstrtouint (s : List Char) : Option Nat :=
  let s1 := match s with
    | '+' :: t => t
    | _ => s
  let ds := s1.takeWhile Char.isDigit
  let rest := s1.dropWhile Char.isDigit
  let rest1 := match rest with
    | c :: t => if c = Char.ofNat 10 then t else rest
    | [] => rest
  if ds.isEmpty then none
  else if !rest1.isEmpty then none
  else if digits_value ds ≤ U32_MAX then some (digits_value ds)
  else none

/-- Comparison callback handed to the sort (`compare_func`). -/
def compare_func (a b : Nat) : Int :=
  if a < b then -1
  else if a > b then 1
  else 0

/-- Insertion of one element into a list ordered by `cmp`. -/
def sort_insert (cmp : Nat → Nat → Int) (x : Nat) : List Nat → List Nat
  | [] => [x]
  | y :: ys => if cmp x y ≤ 0 then x :: y :: ys else y :: sort_insert cmp x ys

/-- Modelled from the spec: the kernel library routine `sort(base, num, size,
cmp, swap)` is not part of the sources. It rearranges the `num` elements into
ascending order with respect to `cmp`; here by insertion. -/
def sort (cmp : Nat → Nat → Int) : List Nat → List Nat
  | [] => []
  | x :: xs => sort_insert cmp x (sort cmp xs)

/-! ## The percentile reducer -/

/-- The reducer `mpf(ns, percentile_low, percentile_high)`. It clears the
collection flag, and unless the buffer is empty sorts the first
`rtt_sample_count` entries in place, reads the two percentile entries and writes
their `u32` difference to the global `min_rtt_fluctuation`. -/
def mpf (g : Globals) (ns : leocc_nl_ns) (percentile_low percentile_high : Nat) :
    Option (Globals × leocc_nl_ns) :=
  let ns1 := { ns with min_rtt_fluctuation_collection := false }
  if ns1.rtt_sample_count = 0 then some (g, ns1)
  else if ns1.rtt_samples.length < ns1.rtt_sample_count then none
  else
    let ns2 := { ns1 with
      rtt_samples := sort compare_func (ns1.rtt_samples.take ns1.rtt_sample_count)
        ++ ns1.rtt_samples.drop ns1.rtt_sample_count }
    match ns2.rtt_samples[u32_mul ns2.rtt_sample_count percentile_low / 100]? with
    | none => none
    | some lo =>
      let ns3 := { ns2 with reconfiguration_min_rtt := lo }
      match ns3.rtt_samples[u32_mul ns3.rtt_sample_count percentile_high / 100]? with
      | none => none
      | some hi =>
        let ns4 := { ns3 with reconfiguration_max_rtt := hi }
        some ({ g with min_rtt_fluctuation :=
                  u32_sub ns4.reconfiguration_max_rtt ns4.reconfiguration_min_rtt }, ns4)

/-! ## The event handler -/

/-- Timestamp of an event in milliseconds:
`data->sec * 1000ULL + data->usec / 1000U`, in `u64`. -/
def cur_time_ms (data : rtt_data) : Nat :=
  u64_add (u64_mul data.sec 1000) (data.usec / 1000)

/-- First block of `netlink_recv_msg`: auto-clear of the global trigger. -/
def expire_trigger (g : Globals) (ns : leocc_nl_ns) (cur : Nat) : Globals :=
  if g.global_reconfiguration_trigger = true ∧
      0 < ns.reconfiguration_trigger_time_ms ∧
      u64_add ns.reconfiguration_trigger_time_ms global_reconfiguration_trigger_duration ≤ cur
  then { g with global_reconfiguration_trigger := false }
  else g

/-- Second block of `netlink_recv_msg`: start of a collection window. -/
def start_collection (ns : leocc_nl_ns) (cur : Nat) : leocc_nl_ns :=
  if ns.min_rtt_fluctuation_collection = false ∧
      0 < ns.reconfiguration_trigger_time_ms ∧
      u64_add ns.reconfiguration_trigger_time_ms ns.reconfiguration_rtt_ms ≤ cur
  then { ns with
    min_rtt_fluctuation_collection := true
    rtt_sample_count := 0
    reconfiguration_min_rtt := U32_MAX
    reconfiguration_max_rtt := 0
    local_rtt_sample_min := U32_MAX
    local_rtt_sample_max := 0 }
  else ns

/-- The stores of the branch `rtt_sample_count < RTT_SAMPLE_MAX` of the third
block: the sample is written at index `rtt_sample_count`, the count is
incremented and the running extrema are updated. The count is below
`RTT_SAMPLE_MAX` there, so the `u32` increment does not wrap. -/
def store_sample (ns : leocc_nl_ns) (rtt_value : Nat) : leocc_nl_ns :=
  let ns1 := { ns with
    rtt_samples := ns.rtt_samples.set ns.rtt_sample_count rtt_value
    rtt_sample_count := ns.rtt_sample_count + 1 }
  let ns2 := { ns1 with
    local_rtt_sample_min := if rtt_value < ns1.local_rtt_sample_min
      then rtt_value else ns1.local_rtt_sample_min }
  { ns2 with
    local_rtt_sample_max := if rtt_value > ns2.local_rtt_sample_max
      then rtt_value else ns2.local_rtt_sample_max }

/-- Third block of `netlink_recv_msg`: recording of a sample while collecting. -/
def record_sample (g : Globals) (ns : leocc_nl_ns) (data : rtt_data) :
    Option (Globals × leocc_nl_ns) :=
  if ns.min_rtt_fluctuation_collection = true then
    match kstrtouint (rtt_text data) with
    | some rtt_value =>
      if ns.rtt_sample_count < RTT_SAMPLE_MAX then
        if ns.rtt_sample_count < ns.rtt_samples.length then
          some (g, store_sample ns rtt_value)
        else none
      else
        match mpf g ns 5 95 with
        | none => none
        | some (g1, ns1) => some (g1, { ns1 with reconfiguration_trigger_time_ms := 0 })
    | none => some (g, ns)
  else some (g, ns)

/-- Fourth block of `netlink_recv_msg`: a reconfiguration message sets the
global trigger and, when its text parses, the trigger time and settle delay. -/
def handle_reconfig (g : Globals) (ns : leocc_nl_ns) (data : rtt_data) (cur : Nat) :
    Globals × leocc_nl_ns :=
  if data.is_reconfig = 1 then
    let g1 := { g with global_reconfiguration_trigger := true }
    match kstrtouint (rtt_text data) with
    | some rtt_value_us =>
      (g1, { ns with
        reconfiguration_trigger_time_ms := cur
        reconfiguration_rtt_ms := rtt_value_us / 1000 })
    | none => (g1, ns)
  else (g, ns)

/-- The handler `netlink_recv_msg`, from the point where the message and the
context of its namespace have been resolved: the four blocks in source order. -/
def netlink_recv_msg (g : Globals) (ns : leocc_nl_ns) (data : rtt_data) :
    Option (Globals × leocc_nl_ns) :=
  let cur := cur_time_ms data
  let g1 := expire_trigger g ns cur
  let ns1 := start_collection ns cur
  match record_sample g1 ns1 data with
  | none => none
  | some (g2, ns2) => some (handle_reconfig g2 ns2 data cur)

/-- Delivery of a sequence of events to one context, in order. -/
def run (g : Globals) (ns : leocc_nl_ns) : List rtt_data → Option (Globals × leocc_nl_ns)
  | [] => some (g, ns)
  | d :: ds =>
    match netlink_recv_msg g ns d with
    | none => none
    | some (g1, ns1) => run g1 ns1 ds

/-- The initialiser `leocc_nl_init_net`: `ns` is the storage handed over by the
kernel and `sk` the result of `netlink_kernel_create`. The result is the return
code together with the storage afterwards. -/
def leocc_nl_init_net (ns : leocc_nl_ns) (sk : Nat) : Int × leocc_nl_ns :=
  let ns1 := { ns with nl_sk := sk }
  if ns1.nl_sk = 0 then (-12, ns1)
  else (0, { ns1 with
    reconfiguration_trigger_time_ms := 0
    reconfiguration_rtt_ms := 0
    rtt_sample_count := 0
    local_rtt_sample_max := 0
    local_rtt_sample_min := U32_MAX
    min_rtt_fluctuation_collection := false
    reconfiguration_min_rtt := U32_MAX
    reconfiguration_max_rtt := 0 })

/-! ## Concrete contexts and events -/

/-- Zeroed storage for a context, as the kernel hands it to the initialiser. -/
def ns_zero : leocc_nl_ns :=
  { nl_sk := 0
    rtt_samples := List.replicate 100 0
    reconfiguration_trigger_time_ms := 0
    reconfiguration_rtt_ms := 0
    rtt_sample_count := 0
    local_rtt_sample_max := 0
    local_rtt_sample_min := 0
    min_rtt_fluctuation_collection := false
    reconfiguration_min_rtt := 0
    reconfiguration_max_rtt := 0 }

/-- A freshly initialised context. -/
def ns_fresh : leocc_nl_ns := (leocc_nl_init_net ns_zero 1).2

/-- Global state with the trigger clear. -/
def g_clear : Globals := { global_reconfiguration_trigger := false, min_rtt_fluctuation := 0 }

/-- An event stamped `sec` seconds and `ms` milliseconds, with the given text and
`is_reconfig` value. -/
def ev_at (sec ms : Nat) (text : String) (reconfig : Nat) : rtt_data :=
  { sec := sec, usec := ms * 1000, rtt_value_microseconds := text.toList.map Char.toNat,
    is_reconfig := reconfig, trailing := [] }

/-- A context whose buffer is full with the samples `100, 101, ..., 199`. -/
def ns_ramp : leocc_nl_ns :=
  { ns_fresh with
    rtt_samples := List.range' 100 100
    rtt_sample_count := 100
    min_rtt_fluctuation_collection := true }

/-- A context at the start of a collection window. -/
def ns_collecting : leocc_nl_ns :=
  { ns_fresh with min_rtt_fluctuation_collection := true }

/-- Global state with the trigger set. -/
def g_set : Globals := { global_reconfiguration_trigger := true, min_rtt_fluctuation := 0 }

/-- A context with a pending trigger at `2^64 - 100` ms and a settle delay of
150 ms, the state a fresh context is in after a reconfiguration event with text
`150000` at that timestamp. -/
def ns_late : leocc_nl_ns :=
  { ns_fresh with
    reconfiguration_trigger_time_ms := 18446744073709551516
    reconfiguration_rtt_ms := 150 }

/-- One sample event per millisecond from 1050 ms to 1150 ms, 101 events. -/
def ev_burst : List rtt_data :=
  (List.range 101).map (fun i => ev_at 1 (50 + i) "700" 0)

/-- A context with a pending trigger at 1000 ms and a settle delay of 50 ms. -/
def ns_pending : leocc_nl_ns :=
  { ns_fresh with reconfiguration_trigger_time_ms := 1000, reconfiguration_rtt_ms := 50 }

/-! ## Facts about the library routines -/

theorem compare_func_le_zero (a b : Nat) : compare_func a b ≤ 0 ↔ a ≤ b := by
  unfold compare_func
  split_ifs with h1 h2
  · simp; omega
  · simp; omega
  · simp; omega

theorem sort_insert_perm (x : Nat) (l : List Nat) :
    (sort_insert compare_func x l).Perm (x :: l) := by
  induction l with
  | nil => simp [sort_insert]
  | cons y ys ih =>
    unfold sort_insert
    split_ifs with h
    · exact List.Perm.refl _
    · exact (List.Perm.cons y ih).trans (List.Perm.swap x y ys)

theorem sort_perm (l : List Nat) : (sort compare_func l).Perm l := by
  induction l with
  | nil => simp [sort]
  | cons x xs ih =>
    unfold sort
    exact (sort_insert_perm x _).trans (List.Perm.cons x ih)

theorem sort_length (l : List Nat) : (sort compare_func l).length = l.length :=
  (sort_perm l).length_eq

theorem sort_insert_sorted (x : Nat) (l : List Nat) (h : l.Sorted (· ≤ ·)) :
    (sort_insert compare_func x l).Sorted (· ≤ ·) := by
  induction l with
  | nil => simp [sort_insert]
  | cons y ys ih =>
    unfold sort_insert
    split_ifs with hc
    · rw [compare_func_le_zero] at hc
      refine List.sorted_cons.mpr ⟨?_, h⟩
      intro b hb
      rcases List.mem_cons.mp hb with rfl | hb
      · exact hc
      · exact le_trans hc (List.rel_of_sorted_cons h b hb)
    · rw [compare_func_le_zero] at hc
      refine List.sorted_cons.mpr ⟨?_, ih (List.Sorted.of_cons h)⟩
      intro b hb
      have hb1 : b ∈ x :: ys := (sort_insert_perm x ys).mem_iff.mp hb
      rcases List.mem_cons.mp hb1 with rfl | hb1
      · omega
      · exact List.rel_of_sorted_cons h b hb1

theorem sort_sorted (l : List Nat) : (sort compare_func l).Sorted (· ≤ ·) := by
  induction l with
  | nil => simp [sort]
  | cons x xs ih =>
    unfold sort
    exact sort_insert_sorted x _ ih

/-- Every ascending rearrangement of a list is the one the sort produces. -/
theorem sort_eq_of_sorted_perm (s l : List Nat) (hs : s.Sorted (· ≤ ·)) (hp : s.Perm l) :
    sort compare_func l = s :=
  List.eq_of_perm_of_sorted ((sort_perm l).trans hp.symm) (sort_sorted l) hs

theorem kstrtouint_le (s : List Char) (v : Nat) (h : kstrtouint s = some v) : v ≤ U32_MAX := by
  unfold kstrtouint at h
  simp only at h
  split_ifs at h with h1 h2 h3
  simp only [Option.some.injEq] at h
  omega

/-! ## Facts about the handler blocks -/

theorem start_collection_of_collecting (ns : leocc_nl_ns) (cur : Nat)
    (hc : ns.min_rtt_fluctuation_collection = true) : start_collection ns cur = ns := by
  simp [start_collection, hc]

theorem handle_reconfig_of_ne (g : Globals) (ns : leocc_nl_ns) (data : rtt_data) (cur : Nat)
    (hr : data.is_reconfig ≠ 1) : handle_reconfig g ns data cur = (g, ns) := by
  simp [handle_reconfig, hr]

/-- A context that is not collecting after the second block skips the third. -/
theorem recv_not_collecting (g : Globals) (ns : leocc_nl_ns) (data : rtt_data)
    (hc : (start_collection ns (cur_time_ms data)).min_rtt_fluctuation_collection = false) :
    netlink_recv_msg g ns data =
      some (handle_reconfig (expire_trigger g ns (cur_time_ms data))
        (start_collection ns (cur_time_ms data)) data (cur_time_ms data)) := by
  simp [netlink_recv_msg, record_sample, hc]

/-- A collecting context drops a text that does not parse. -/
theorem recv_collecting_invalid (g : Globals) (ns : leocc_nl_ns) (data : rtt_data)
    (hc : ns.min_rtt_fluctuation_collection = true)
    (hp : kstrtouint (rtt_text data) = none) :
    netlink_recv_msg g ns data =
      some (handle_reconfig (expire_trigger g ns (cur_time_ms data)) ns data
        (cur_time_ms data)) := by
  simp [netlink_recv_msg, record_sample, start_collection_of_collecting, hc, hp]

/-- A collecting context with room in its buffer appends a parsed sample. -/
theorem recv_collecting_append (g : Globals) (ns : leocc_nl_ns) (data : rtt_data) (v : Nat)
    (hc : ns.min_rtt_fluctuation_collection = true)
    (hn : ns.rtt_sample_count < RTT_SAMPLE_MAX)
    (hl : ns.rtt_sample_count < ns.rtt_samples.length)
    (hp : kstrtouint (rtt_text data) = some v) :
    netlink_recv_msg g ns data =
      some (handle_reconfig (expire_trigger g ns (cur_time_ms data)) (store_sample ns v)
        data (cur_time_ms data)) := by
  simp only [netlink_recv_msg, record_sample, start_collection_of_collecting, hc, hp, hn, hl,
    if_true]

/-- A collecting context with a full buffer runs the reducer on a parsed sample. -/
theorem recv_collecting_full (g g1 : Globals) (ns ns1 : leocc_nl_ns) (data : rtt_data) (v : Nat)
    (hc : ns.min_rtt_fluctuation_collection = true)
    (hn : ¬ ns.rtt_sample_count < RTT_SAMPLE_MAX)
    (hp : kstrtouint (rtt_text data) = some v)
    (hm : mpf (expire_trigger g ns (cur_time_ms data)) ns 5 95 = some (g1, ns1)) :
    netlink_recv_msg g ns data =
      some (handle_reconfig g1 { ns1 with reconfiguration_trigger_time_ms := 0 } data
        (cur_time_ms data)) := by
  simp [netlink_recv_msg, record_sample, start_collection_of_collecting, hc, hp, hn, hm]

/-- The reducer on a non-empty buffer whose indices are in range. -/
theorem mpf_some (g : Globals) (ns : leocc_nl_ns) (low high : Nat)
    (h0 : 1 ≤ ns.rtt_sample_count) (hn : ns.rtt_sample_count ≤ RTT_SAMPLE_MAX)
    (hlen : ns.rtt_sample_count ≤ ns.rtt_samples.length) (hl : low < 100) (hh : high < 100) :
    ∃ lo hi,
      (sort compare_func (ns.rtt_samples.take ns.rtt_sample_count))[
        ns.rtt_sample_count * low / 100]? = some lo ∧
      (sort compare_func (ns.rtt_samples.take ns.rtt_sample_count))[
        ns.rtt_sample_count * high / 100]? = some hi ∧
      mpf g ns low high = some
        ({ g with min_rtt_fluctuation := u32_sub hi lo },
         { ns with
           min_rtt_fluctuation_collection := false
           rtt_samples := sort compare_func (ns.rtt_samples.take ns.rtt_sample_count)
             ++ ns.rtt_samples.drop ns.rtt_sample_count
           reconfiguration_min_rtt := lo
           reconfiguration_max_rtt := hi }) := by
  have hslen : (sort compare_func (ns.rtt_samples.take ns.rtt_sample_count)).length
      = ns.rtt_sample_count := by
    rw [sort_length, List.length_take]; omega
  unfold RTT_SAMPLE_MAX at hn
  have hil : ns.rtt_sample_count * low / 100 < ns.rtt_sample_count := by
    apply Nat.div_lt_of_lt_mul
    nlinarith
  have hih : ns.rtt_sample_count * high / 100 < ns.rtt_sample_count := by
    apply Nat.div_lt_of_lt_mul
    nlinarith
  have hml : u32_mul ns.rtt_sample_count low = ns.rtt_sample_count * low := by
    unfold u32_mul U32_MOD
    apply Nat.mod_eq_of_lt
    nlinarith
  have hmh : u32_mul ns.rtt_sample_count high = ns.rtt_sample_count * high := by
    unfold u32_mul U32_MOD
    apply Nat.mod_eq_of_lt
    nlinarith
  obtain ⟨lo, hlo⟩ : ∃ lo, (sort compare_func (ns.rtt_samples.take ns.rtt_sample_count))[
      ns.rtt_sample_count * low / 100]? = some lo :=
    ⟨_, List.getElem?_eq_getElem (by rw [hslen]; exact hil)⟩
  obtain ⟨hi, hhi⟩ : ∃ hi, (sort compare_func (ns.rtt_samples.take ns.rtt_sample_count))[
      ns.rtt_sample_count * high / 100]? = some hi :=
    ⟨_, List.getElem?_eq_getElem (by rw [hslen]; exact hih)⟩
  refine ⟨lo, hi, hlo, hhi, ?_⟩
  have hlo2 : (sort compare_func (ns.rtt_samples.take ns.rtt_sample_count)
      ++ ns.rtt_samples.drop ns.rtt_sample_count)[ns.rtt_sample_count * low / 100]?
      = some lo := by
    rw [List.getElem?_append_left (by rw [hslen]; exact hil)]; exact hlo
  have hhi2 : (sort compare_func (ns.rtt_samples.take ns.rtt_sample_count)
      ++ ns.rtt_samples.drop ns.rtt_sample_count)[ns.rtt_sample_count * high / 100]?
      = some hi := by
    rw [List.getElem?_append_left (by rw [hslen]; exact hih)]; exact hhi
  have hne : ns.rtt_sample_count ≠ 0 := by omega
  have hnl : ¬ ns.rtt_samples.length < ns.rtt_sample_count := by omega
  simp only [mpf, hne, hnl, if_false, hml, hmh, hlo2, hhi2]

theorem recv_of_record (g g2 : Globals) (ns ns2 : leocc_nl_ns) (data : rtt_data)
    (h : record_sample (expire_trigger g ns (cur_time_ms data))
      (start_collection ns (cur_time_ms data)) data = some (g2, ns2)) :
    netlink_recv_msg g ns data = some (handle_reconfig g2 ns2 data (cur_time_ms data)) := by
  simp only [netlink_recv_msg, h]

theorem record_sample_invalid (g : Globals) (ns : leocc_nl_ns) (data : rtt_data)
    (hc : ns.min_rtt_fluctuation_collection = true)
    (hp : kstrtouint (rtt_text data) = none) :
    record_sample g ns data = some (g, ns) := by
  simp only [record_sample, hc, hp, if_true]

theorem record_sample_append (g : Globals) (ns : leocc_nl_ns) (data : rtt_data) (v : Nat)
    (hc : ns.min_rtt_fluctuation_collection = true)
    (hn : ns.rtt_sample_count < RTT_SAMPLE_MAX)
    (hl : ns.rtt_sample_count < ns.rtt_samples.length)
    (hp : kstrtouint (rtt_text data) = some v) :
    record_sample g ns data = some (g, store_sample ns v) := by
  simp only [record_sample, hc, hp, hn, hl, if_true]

/-! ## Preservation of well-formedness -/

theorem start_collection_wf (ns : leocc_nl_ns) (cur : Nat) (h : wf ns) :
    wf (start_collection ns cur) := by
  unfold start_collection
  split_ifs
  · exact ⟨h.1, Nat.zero_le _⟩
  · exact h

theorem handle_reconfig_frame (g : Globals) (ns : leocc_nl_ns) (data : rtt_data) (cur : Nat) :
    (handle_reconfig g ns data cur).2.rtt_samples = ns.rtt_samples ∧
    (handle_reconfig g ns data cur).2.rtt_sample_count = ns.rtt_sample_count ∧
    (handle_reconfig g ns data cur).2.min_rtt_fluctuation_collection
      = ns.min_rtt_fluctuation_collection ∧
    (handle_reconfig g ns data cur).2.reconfiguration_min_rtt = ns.reconfiguration_min_rtt ∧
    (handle_reconfig g ns data cur).2.reconfiguration_max_rtt = ns.reconfiguration_max_rtt ∧
    (handle_reconfig g ns data cur).1.min_rtt_fluctuation = g.min_rtt_fluctuation := by
  unfold handle_reconfig
  split_ifs
  · cases kstrtouint (rtt_text data) <;> simp
  · simp

theorem handle_reconfig_wf (g : Globals) (ns : leocc_nl_ns) (data : rtt_data) (cur : Nat)
    (h : wf ns) : wf (handle_reconfig g ns data cur).2 := by
  obtain ⟨h1, h2, _⟩ := handle_reconfig_frame g ns data cur
  unfold wf
  rw [h1, h2]
  exact h

theorem mpf_wf (g : Globals) (ns : leocc_nl_ns) (low high : Nat) (h : wf ns)
    (hl : low < 100) (hh : high < 100) :
    ∃ g1 ns1, mpf g ns low high = some (g1, ns1) ∧ wf ns1 ∧
      ns1.rtt_sample_count = ns.rtt_sample_count := by
  by_cases h0 : ns.rtt_sample_count = 0
  · exact ⟨g, { ns with min_rtt_fluctuation_collection := false }, by simp [mpf, h0], h, rfl⟩
  · obtain ⟨lo, hi, _, _, hm⟩ := mpf_some g ns low high (by omega) h.2 (by rw [h.1]; exact h.2)
      hl hh
    refine ⟨_, _, hm, ⟨?_, h.2⟩, rfl⟩
    have := h.1
    have := h.2
    simp only [List.length_append, sort_length, List.length_take, List.length_drop]
    omega

theorem record_sample_wf (g : Globals) (ns : leocc_nl_ns) (data : rtt_data) (h : wf ns) :
    ∃ g1 ns1, record_sample g ns data = some (g1, ns1) ∧ wf ns1 := by
  by_cases hc : ns.min_rtt_fluctuation_collection = true
  · cases hp : kstrtouint (rtt_text data) with
    | none => exact ⟨g, ns, by simp [record_sample, hc, hp], h⟩
    | some v =>
      by_cases hn : ns.rtt_sample_count < RTT_SAMPLE_MAX
      · have hl : ns.rtt_sample_count < ns.rtt_samples.length := by rw [h.1]; exact hn
        refine ⟨g, store_sample ns v, by simp only [record_sample, hc, hp, hn, hl, if_true], ?_⟩
        have hw : ns.rtt_samples.length = RTT_SAMPLE_MAX ∧
            ns.rtt_sample_count + 1 ≤ RTT_SAMPLE_MAX := ⟨h.1, hn⟩
        exact hw.imp_left (by simp [store_sample])
      · obtain ⟨g1, ns1, hm, hw, _⟩ := mpf_wf g ns 5 95 h (by decide) (by decide)
        exact ⟨g1, { ns1 with reconfiguration_trigger_time_ms := 0 },
          by simp only [record_sample, hc, hp, hn, if_true, if_false, hm], hw⟩
  · exact ⟨g, ns, by simp [record_sample, hc], h⟩

/-- The handler returns on every well-formed context, and the context stays
well formed. -/
theorem recv_wf (g : Globals) (ns : leocc_nl_ns) (data : rtt_data) (h : wf ns) :
    ∃ g1 ns1, netlink_recv_msg g ns data = some (g1, ns1) ∧ wf ns1 := by
  obtain ⟨g2, ns2, hr, hw⟩ := record_sample_wf (expire_trigger g ns (cur_time_ms data))
    (start_collection ns (cur_time_ms data)) data (start_collection_wf ns _ h)
  refine ⟨(handle_reconfig g2 ns2 data (cur_time_ms data)).1,
    (handle_reconfig g2 ns2 data (cur_time_ms data)).2, ?_, handle_reconfig_wf _ _ _ _ hw⟩
  simp [netlink_recv_msg, hr]

theorem run_wf (evs : List rtt_data) (g : Globals) (ns : leocc_nl_ns) (h : wf ns) :
    ∃ g1 ns1, run g ns evs = some (g1, ns1) ∧ wf ns1 := by
  induction evs generalizing g ns with
  | nil => exact ⟨g, ns, rfl, h⟩
  | cons d ds ih =>
    obtain ⟨g1, ns1, hr, hw⟩ := recv_wf g ns d h
    obtain ⟨g2, ns2, hr2, hw2⟩ := ih g1 ns1 hw
    exact ⟨g2, ns2, by simp [run, hr, hr2], hw2⟩

theorem init_wf (ns : leocc_nl_ns) (sk : Nat) (hlen : ns.rtt_samples.length = RTT_SAMPLE_MAX)
    (hsk : sk ≠ 0) : wf (leocc_nl_init_net ns sk).2 := by
  simp [leocc_nl_init_net, hsk, wf, hlen]

/-! ## Runs of events -/

theorem run_append (a b : List rtt_data) (g : Globals) (ns : leocc_nl_ns) :
    run g ns (a ++ b) = (run g ns a).bind (fun r => run r.1 r.2 b) := by
  induction a generalizing g ns with
  | nil => simp [run]
  | cons d ds ih =>
    simp only [List.cons_append, run]
    cases netlink_recv_msg g ns d with
    | none => simp
    | some r => exact ih r.1 r.2

theorem take_succ_set (l : List Nat) (c v : Nat) (h : c < l.length) :
    (l.set c v).take (c + 1) = l.take c ++ [v] := by
  induction l generalizing c with
  | nil => simp at h
  | cons x xs ih =>
    cases c with
    | zero => simp
    | succ c =>
      simp only [List.set_cons_succ, List.take_succ_cons, List.cons_append, List.cons.injEq,
        true_and]
      exact ih c (by simpa using h)

/-- A collecting context fed non-reconfiguration events with parseable texts, as
long as they fit the buffer: each value is appended, the window stays open and
no reduction runs. -/
theorem run_collect (evs : List rtt_data) (vs : List Nat) (g : Globals) (ns : leocc_nl_ns)
    (hc : ns.min_rtt_fluctuation_collection = true)
    (hlen : ns.rtt_samples.length = RTT_SAMPLE_MAX)
    (hn : ns.rtt_sample_count + evs.length ≤ RTT_SAMPLE_MAX)
    (hr : ∀ d ∈ evs, d.is_reconfig ≠ 1)
    (hp : evs.map (fun d => kstrtouint (rtt_text d)) = vs.map some) :
    ∃ g1 ns1, run g ns evs = some (g1, ns1) ∧
      ns1.min_rtt_fluctuation_collection = true ∧
      ns1.rtt_samples.length = RTT_SAMPLE_MAX ∧
      ns1.rtt_sample_count = ns.rtt_sample_count + evs.length ∧
      ns1.rtt_samples.take ns1.rtt_sample_count
        = ns.rtt_samples.take ns.rtt_sample_count ++ vs ∧
      ns1.reconfiguration_min_rtt = ns.reconfiguration_min_rtt ∧
      ns1.reconfiguration_max_rtt = ns.reconfiguration_max_rtt ∧
      ns1.reconfiguration_trigger_time_ms = ns.reconfiguration_trigger_time_ms ∧
      ns1.reconfiguration_rtt_ms = ns.reconfiguration_rtt_ms ∧
      g1.min_rtt_fluctuation = g.min_rtt_fluctuation := by
  induction evs generalizing vs g ns with
  | nil =>
    cases vs with
    | nil => exact ⟨g, ns, rfl, hc, hlen, rfl, by simp, rfl, rfl, rfl, rfl, rfl⟩
    | cons v vs => simp at hp
  | cons d ds ih =>
    cases vs with
    | nil => simp at hp
    | cons v vs =>
      simp only [List.map_cons, List.cons.injEq] at hp
      simp only [List.length_cons] at hn
      have hlt : ns.rtt_sample_count < RTT_SAMPLE_MAX := by omega
      have hstep := recv_collecting_append g ns d v hc hlt (by rw [hlen]; exact hlt) hp.1
      rw [handle_reconfig_of_ne _ _ _ _ (hr d (List.mem_cons_self d ds))] at hstep
      obtain ⟨g1, ns1, hrun, h1, h2, h3, h4, h5, h6, h7, h8, h9⟩ :=
        ih vs (expire_trigger g ns (cur_time_ms d)) (store_sample ns v) hc
          (by simpa [store_sample] using hlen)
          (by simp only [store_sample]; omega) (fun x hx => hr x (List.mem_cons_of_mem d hx)) hp.2
      refine ⟨g1, ns1, by simp only [run, hstep, hrun], h1, h2, ?_, ?_, h5, h6, h7, h8, ?_⟩
      · rw [h3]; simp only [store_sample, List.length_cons]; omega
      · rw [h4]
        simp only [store_sample]
        rw [take_succ_set _ _ _ (by rw [hlen]; exact hlt)]
        simp
      · rw [h9]
        unfold expire_trigger
        split_ifs <;> rfl

theorem sorted_getElem?_le (s : List Nat) (i j a b : Nat) (hs : s.Sorted (· ≤ ·)) (hij : i ≤ j)
    (ha : s[i]? = some a) (hb : s[j]? = some b) : a ≤ b := by
  obtain ⟨hi, rfl⟩ := List.getElem?_eq_some_iff.mp ha
  obtain ⟨hj, rfl⟩ := List.getElem?_eq_some_iff.mp hb
  rcases Nat.eq_or_lt_of_le hij with h | h
  · subst h; exact le_refl _
  · exact List.pairwise_iff_getElem.mp hs i j hi hj h

theorem u32_sub_of_le (a b : Nat) (hab : b ≤ a) (ha : a ≤ U32_MAX) : u32_sub a b = a - b := by
  unfold u32_sub U32_MOD
  unfold U32_MAX at ha
  omega

/-- The buffer-full step: a collecting context whose buffer holds
`RTT_SAMPLE_MAX` samples runs the reducer with bounds `(5, 95)` on the next
parseable text and closes the window. -/
theorem recv_full_reduce (g : Globals) (ns : leocc_nl_ns) (data : rtt_data) (v : Nat)
    (hc : ns.min_rtt_fluctuation_collection = true)
    (hlen : ns.rtt_samples.length = RTT_SAMPLE_MAX)
    (hn : ns.rtt_sample_count = RTT_SAMPLE_MAX)
    (hp : kstrtouint (rtt_text data) = some v) :
    ∃ lo hi,
      (sort compare_func (ns.rtt_samples.take ns.rtt_sample_count))[5]? = some lo ∧
      (sort compare_func (ns.rtt_samples.take ns.rtt_sample_count))[95]? = some hi ∧
      netlink_recv_msg g ns data = some
        (handle_reconfig
          { expire_trigger g ns (cur_time_ms data) with min_rtt_fluctuation := u32_sub hi lo }
          { ns with
            min_rtt_fluctuation_collection := false
            rtt_samples := sort compare_func (ns.rtt_samples.take ns.rtt_sample_count)
              ++ ns.rtt_samples.drop ns.rtt_sample_count
            reconfiguration_min_rtt := lo
            reconfiguration_max_rtt := hi
            reconfiguration_trigger_time_ms := 0 }
          data (cur_time_ms data)) := by
  obtain ⟨lo, hi, hlo, hhi, hm⟩ := mpf_some (expire_trigger g ns (cur_time_ms data)) ns 5 95
    (by rw [hn]; decide) (by rw [hn]) (by rw [hn, hlen]) (by decide) (by decide)
  have e5 : ns.rtt_sample_count * 5 / 100 = 5 := by rw [hn]; rfl
  have e95 : ns.rtt_sample_count * 95 / 100 = 95 := by rw [hn]; rfl
  rw [e5] at hlo
  rw [e95] at hhi
  refine ⟨lo, hi, hlo, hhi, ?_⟩
  rw [recv_collecting_full g _ ns _ data v hc (by rw [hn]; exact Nat.lt_irrefl _) hp hm]

theorem handle_reconfig_trigger (g : Globals) (ns : leocc_nl_ns) (data : rtt_data) (cur : Nat)
    (hr : data.is_reconfig = 1) :
    (handle_reconfig g ns data cur).1.global_reconfiguration_trigger = true := by
  unfold handle_reconfig
  rw [if_pos hr]
  cases kstrtouint (rtt_text data) <;> rfl

theorem handle_reconfig_parsed (g : Globals) (ns : leocc_nl_ns) (data : rtt_data) (cur v : Nat)
    (hr : data.is_reconfig = 1) (hp : kstrtouint (rtt_text data) = some v) :
    handle_reconfig g ns data cur =
      ({ g with global_reconfiguration_trigger := true },
       { ns with reconfiguration_trigger_time_ms := cur, reconfiguration_rtt_ms := v / 1000 }) := by
  simp [handle_reconfig, hr, hp]

theorem expire_trigger_fluctuation (g : Globals) (ns : leocc_nl_ns) (cur : Nat) :
    (expire_trigger g ns cur).min_rtt_fluctuation = g.min_rtt_fluctuation := by
  unfold expire_trigger
  split_ifs <;> rfl

theorem mpf_trigger (g g1 : Globals) (ns ns1 : leocc_nl_ns) (low high : Nat)
    (h : mpf g ns low high = some (g1, ns1)) :
    g1.global_reconfiguration_trigger = g.global_reconfiguration_trigger := by
  unfold mpf at h
  simp only at h
  split_ifs at h
  · simp only [Option.some.injEq, Prod.mk.injEq] at h
    rw [← h.1]
  · split at h
    · simp at h
    · split at h
      · simp at h
      · simp only [Option.some.injEq, Prod.mk.injEq] at h
        rw [← h.1]

/-- The third block never writes the global trigger. -/
theorem record_sample_trigger (g g1 : Globals) (ns ns1 : leocc_nl_ns) (data : rtt_data)
    (h : record_sample g ns data = some (g1, ns1)) :
    g1.global_reconfiguration_trigger = g.global_reconfiguration_trigger := by
  unfold record_sample at h
  split at h
  · split at h
    · split at h
      · split at h
        · simp only [Option.some.injEq, Prod.mk.injEq] at h
          rw [← h.1]
        · simp at h
      · split at h
        · simp at h
        · rename_i gm nm hm
          simp only [Option.some.injEq, Prod.mk.injEq] at h
          rw [← h.1]
          exact mpf_trigger _ _ _ _ _ _ hm
    · simp only [Option.some.injEq, Prod.mk.injEq] at h
      rw [← h.1]
  · simp only [Option.some.injEq, Prod.mk.injEq] at h
    rw [← h.1]

theorem parse_values (evs : List rtt_data)
    (h : ∀ d ∈ evs, ∃ v, kstrtouint (rtt_text d) = some v) :
    ∃ vs : List Nat, evs.map (fun d => kstrtouint (rtt_text d)) = vs.map some := by
  induction evs with
  | nil => exact ⟨[], rfl⟩
  | cons d ds ih =>
    obtain ⟨v, hv⟩ := h d (List.mem_cons_self d ds)
    obtain ⟨vs, hvs⟩ := ih (fun x hx => h x (List.mem_cons_of_mem d hx))
    exact ⟨v :: vs, by simp only [List.map_cons, hv, hvs]⟩

/-- A collecting context receives exactly as many non-reconfiguration events with
parseable texts as fill its buffer, plus one: the window stays open up to the
last event, and the last event closes it. -/
theorem run_window (evs : List rtt_data) (g : Globals) (ns : leocc_nl_ns)
    (hc : ns.min_rtt_fluctuation_collection = true)
    (hlen : ns.rtt_samples.length = RTT_SAMPLE_MAX)
    (hcnt : ns.rtt_sample_count ≤ RTT_SAMPLE_MAX)
    (hn : ns.rtt_sample_count + evs.length = RTT_SAMPLE_MAX + 1)
    (hr : ∀ d ∈ evs, d.is_reconfig ≠ 1)
    (hpa : ∀ d ∈ evs, ∃ v, kstrtouint (rtt_text d) = some v) :
    (∀ k, k < evs.length → ∃ g1 ns1, run g ns (evs.take k) = some (g1, ns1) ∧
      ns1.min_rtt_fluctuation_collection = true ∧
      ns1.reconfiguration_trigger_time_ms = ns.reconfiguration_trigger_time_ms) ∧
    (∃ g1 ns1, run g ns evs = some (g1, ns1) ∧
      ns1.min_rtt_fluctuation_collection = false ∧
      ns1.reconfiguration_trigger_time_ms = 0) := by
  constructor
  · intro k hk
    have hmem : ∀ d ∈ evs.take k, d ∈ evs := fun d hd => List.mem_of_mem_take hd
    obtain ⟨vs, hvs⟩ := parse_values (evs.take k) (fun d hd => hpa d (hmem d hd))
    obtain ⟨g1, ns1, hrun, h1, _, _, _, _, _, h7, _, _⟩ :=
      run_collect (evs.take k) vs g ns hc hlen
        (by rw [List.length_take]; omega) (fun d hd => hr d (hmem d hd)) hvs
    exact ⟨g1, ns1, hrun, h1, h7⟩
  · have hsplit : evs = [] ∨ ∃ front e, evs = front ++ [e] := by
      rcases List.eq_nil_or_concat evs with h | ⟨front, e, h⟩
      · exact Or.inl h
      · exact Or.inr ⟨front, e, by rw [h, List.concat_eq_append]⟩
    rcases hsplit with rfl | ⟨front, e, rfl⟩
    · simp only [List.length_nil, Nat.add_zero] at hn
      omega
    · simp only [List.length_append, List.length_singleton] at hn
      have hfm : ∀ d ∈ front, d ∈ front ++ [e] := fun d hd => List.mem_append_left _ hd
      obtain ⟨vs, hvs⟩ := parse_values front (fun d hd => hpa d (hfm d hd))
      obtain ⟨g1, ns1, hrun, h1, h2, h3, _⟩ :=
        run_collect front vs g ns hc hlen (by omega) (fun d hd => hr d (hfm d hd)) hvs
      have hem : e ∈ front ++ [e] := List.mem_append_right _ (List.mem_singleton_self e)
      obtain ⟨w, hw⟩ := hpa e hem
      obtain ⟨lo, hi, _, _, hstep⟩ := recv_full_reduce g1 ns1 e w h1 h2 (by omega) hw
      rw [handle_reconfig_of_ne _ _ _ _ (hr e hem)] at hstep
      obtain ⟨g2, ns2, hstep2, hc2, ht2⟩ : ∃ g2 ns2,
          netlink_recv_msg g1 ns1 e = some (g2, ns2) ∧
          ns2.min_rtt_fluctuation_collection = false ∧
          ns2.reconfiguration_trigger_time_ms = 0 := ⟨_, _, hstep, rfl, rfl⟩
      refine ⟨g2, ns2, ?_, hc2, ht2⟩
      rw [run_append, hrun]
      simp only [Option.bind, run, hstep2]

theorem sort_mem_take (ns : leocc_nl_ns) (x : Nat)
    (hx : x ∈ sort compare_func (ns.rtt_samples.take ns.rtt_sample_count)) :
    x ∈ ns.rtt_samples :=
  List.mem_of_mem_take ((sort_perm _).mem_iff.mp hx)

theorem handle_reconfig_extrema (g : Globals) (ns : leocc_nl_ns) (data : rtt_data) (cur : Nat) :
    (handle_reconfig g ns data cur).2.local_rtt_sample_min = ns.local_rtt_sample_min ∧
    (handle_reconfig g ns data cur).2.local_rtt_sample_max = ns.local_rtt_sample_max := by
  unfold handle_reconfig
  split_ifs
  · cases kstrtouint (rtt_text data) <;> simp
  · simp

theorem handle_reconfig_extrema_inv (g : Globals) (ns : leocc_nl_ns) (data : rtt_data) (cur : Nat)
    (h : extrema_inv ns) : extrema_inv (handle_reconfig g ns data cur).2 := by
  obtain ⟨h1, h2, _⟩ := handle_reconfig_frame g ns data cur
  obtain ⟨h3, h4⟩ := handle_reconfig_extrema g ns data cur
  unfold extrema_inv
  rw [h1, h2, h3, h4]
  exact h

theorem start_collection_extrema_inv (ns : leocc_nl_ns) (cur : Nat) (h : extrema_inv ns) :
    extrema_inv (start_collection ns cur) := by
  unfold start_collection
  split_ifs
  · exact ⟨fun _ => ⟨rfl, rfl⟩, fun h0 => absurd h0 (Nat.lt_irrefl 0)⟩
  · exact h

theorem store_sample_extrema_inv (ns : leocc_nl_ns) (v : Nat) (h : extrema_inv ns)
    (hl : ns.rtt_sample_count < ns.rtt_samples.length) (hv : v ≤ U32_MAX) :
    extrema_inv (store_sample ns v) := by
  have htake : (store_sample ns v).rtt_samples.take (store_sample ns v).rtt_sample_count
      = ns.rtt_samples.take ns.rtt_sample_count ++ [v] := take_succ_set _ _ _ hl
  have hmin : (store_sample ns v).local_rtt_sample_min
      = if v < ns.local_rtt_sample_min then v else ns.local_rtt_sample_min := rfl
  have hmax : (store_sample ns v).local_rtt_sample_max
      = if v > ns.local_rtt_sample_max then v else ns.local_rtt_sample_max := rfl
  have hcnt : (store_sample ns v).rtt_sample_count = ns.rtt_sample_count + 1 := rfl
  refine ⟨fun h0 => by rw [hcnt] at h0; omega, fun _ => ?_⟩
  rw [htake, hmin, hmax]
  rcases Nat.eq_zero_or_pos ns.rtt_sample_count with hz | hpos
  · obtain ⟨e1, e2⟩ := h.1 hz
    unfold U32_MAX at e1 hv
    rw [hz, e1, e2]
    simp only [List.take_zero, List.nil_append, List.mem_singleton, forall_eq]
    refine ⟨⟨?_, ?_⟩, ⟨?_, ?_⟩⟩ <;> split_ifs <;> omega
  · obtain ⟨⟨m1, m2⟩, ⟨M1, M2⟩⟩ := h.2 hpos
    refine ⟨⟨?_, ?_⟩, ⟨?_, ?_⟩⟩
    · split_ifs
      · exact List.mem_append_right _ (List.mem_singleton_self v)
      · exact List.mem_append_left _ m1
    · intro x hx
      rcases List.mem_append.mp hx with hx | hx
      · have := m2 x hx
        split_ifs <;> omega
      · rw [List.mem_singleton] at hx
        subst hx
        split_ifs <;> omega
    · split_ifs
      · exact List.mem_append_right _ (List.mem_singleton_self v)
      · exact List.mem_append_left _ M1
    · intro x hx
      rcases List.mem_append.mp hx with hx | hx
      · have := M2 x hx
        split_ifs <;> omega
      · rw [List.mem_singleton] at hx
        subst hx
        split_ifs <;> omega

/-- The reducer keeps the running-extrema property: it only rearranges the
first `rtt_sample_count` entries. -/
theorem mpf_extrema_inv (g : Globals) (ns : leocc_nl_ns) (low high : Nat) (hw : wf ns)
    (h : extrema_inv ns) (hl : low < 100) (hh : high < 100) :
    ∃ g1 ns1, mpf g ns low high = some (g1, ns1) ∧ wf ns1 ∧ extrema_inv ns1 := by
  by_cases h0 : ns.rtt_sample_count = 0
  · exact ⟨g, { ns with min_rtt_fluctuation_collection := false }, by simp [mpf, h0], hw, h⟩
  · obtain ⟨lo, hi, _, _, hm⟩ := mpf_some g ns low high (by omega) hw.2
      (by rw [hw.1]; exact hw.2) hl hh
    obtain ⟨g1, ns1, hm1, hs, hc, hmin, hmax⟩ : ∃ g1 ns1, mpf g ns low high = some (g1, ns1) ∧
        ns1.rtt_samples = sort compare_func (ns.rtt_samples.take ns.rtt_sample_count)
          ++ ns.rtt_samples.drop ns.rtt_sample_count ∧
        ns1.rtt_sample_count = ns.rtt_sample_count ∧
        ns1.local_rtt_sample_min = ns.local_rtt_sample_min ∧
        ns1.local_rtt_sample_max = ns.local_rtt_sample_max := ⟨_, _, hm, rfl, rfl, rfl, rfl⟩
    obtain ⟨_, _, hm2, hw1, _⟩ := mpf_wf g ns low high hw hl hh
    rw [hm1] at hm2
    simp only [Option.some.injEq, Prod.mk.injEq] at hm2
    have hslen : (sort compare_func (ns.rtt_samples.take ns.rtt_sample_count)).length
        = ns.rtt_sample_count := by
      rw [sort_length, List.length_take]
      have := hw.1
      have := hw.2
      omega
    have htake : ns1.rtt_samples.take ns1.rtt_sample_count
        = sort compare_func (ns.rtt_samples.take ns.rtt_sample_count) := by
      rw [hs, hc]
      exact List.take_left' hslen
    have hmem : ∀ x, x ∈ ns1.rtt_samples.take ns1.rtt_sample_count ↔
        x ∈ ns.rtt_samples.take ns.rtt_sample_count := by
      intro x
      rw [htake]
      exact (sort_perm _).mem_iff
    refine ⟨g1, ns1, hm1, by rw [hm2.2]; exact hw1, ?_⟩
    unfold extrema_inv
    rw [hc, hmin, hmax]
    refine ⟨h.1, fun hpos => ?_⟩
    obtain ⟨⟨m1, m2⟩, ⟨M1, M2⟩⟩ := h.2 hpos
    rw [← hc]
    exact ⟨⟨(hmem _).mpr m1, fun x hx => m2 x ((hmem x).mp hx)⟩,
      ⟨(hmem _).mpr M1, fun x hx => M2 x ((hmem x).mp hx)⟩⟩

theorem record_sample_extrema_inv (g : Globals) (ns : leocc_nl_ns) (data : rtt_data)
    (hw : wf ns) (h : extrema_inv ns) :
    ∃ g1 ns1, record_sample g ns data = some (g1, ns1) ∧ wf ns1 ∧ extrema_inv ns1 := by
  by_cases hc : ns.min_rtt_fluctuation_collection = true
  · cases hp : kstrtouint (rtt_text data) with
    | none => exact ⟨g, ns, record_sample_invalid g ns data hc hp, hw, h⟩
    | some v =>
      by_cases hn : ns.rtt_sample_count < RTT_SAMPLE_MAX
      · have hl : ns.rtt_sample_count < ns.rtt_samples.length := by rw [hw.1]; exact hn
        have hrec := record_sample_append g ns data v hc hn hl hp
        obtain ⟨_, _, hrec2, hw2⟩ := record_sample_wf g ns data hw
        rw [hrec] at hrec2
        simp only [Option.some.injEq, Prod.mk.injEq] at hrec2
        exact ⟨g, store_sample ns v, hrec, by rw [hrec2.2]; exact hw2,
          store_sample_extrema_inv ns v h hl (kstrtouint_le _ _ hp)⟩
      · obtain ⟨g1, ns1, hm, hw1, hi1⟩ := mpf_extrema_inv g ns 5 95 hw h (by decide) (by decide)
        exact ⟨g1, { ns1 with reconfiguration_trigger_time_ms := 0 },
          by simp only [record_sample, hc, hp, hn, if_true, if_false, hm], hw1, hi1⟩
  · exact ⟨g, ns, by simp [record_sample, hc], hw, h⟩

theorem recv_extrema_inv (g : Globals) (ns : leocc_nl_ns) (data : rtt_data)
    (hw : wf ns) (h : extrema_inv ns) :
    ∃ g1 ns1, netlink_recv_msg g ns data = some (g1, ns1) ∧ wf ns1 ∧ extrema_inv ns1 := by
  obtain ⟨g2, ns2, hr, hw2, hi2⟩ := record_sample_extrema_inv
    (expire_trigger g ns (cur_time_ms data)) (start_collection ns (cur_time_ms data)) data
    (start_collection_wf ns _ hw) (start_collection_extrema_inv ns _ h)
  exact ⟨(handle_reconfig g2 ns2 data (cur_time_ms data)).1,
    (handle_reconfig g2 ns2 data (cur_time_ms data)).2, recv_of_record _ _ _ _ _ hr,
    handle_reconfig_wf _ _ _ _ hw2, handle_reconfig_extrema_inv _ _ _ _ hi2⟩

theorem run_extrema_inv (evs : List rtt_data) (g : Globals) (ns : leocc_nl_ns)
    (hw : wf ns) (h : extrema_inv ns) :
    ∃ g1 ns1, run g ns evs = some (g1, ns1) ∧ wf ns1 ∧ extrema_inv ns1 := by
  induction evs generalizing g ns with
  | nil => exact ⟨g, ns, rfl, hw, h⟩
  | cons d ds ih =>
    obtain ⟨g1, ns1, hr, hw1, hi1⟩ := recv_extrema_inv g ns d hw h
    obtain ⟨g2, ns2, hr2, hw2, hi2⟩ := ih g1 ns1 hw1 hi1
    exact ⟨g2, ns2, by simp [run, hr, hr2], hw2, hi2⟩

theorem init_extrema_inv (ns : leocc_nl_ns) (sk : Nat) (hsk : sk ≠ 0) :
    extrema_inv (leocc_nl_init_net ns sk).2 := by
  simp [leocc_nl_init_net, hsk, extrema_inv]

/-- A collecting context never closes its window while the parseable texts it
receives fit the buffer, whatever the flags and timestamps of the events. -/
theorem run_no_flush (evs : List rtt_data) (g : Globals) (ns : leocc_nl_ns)
    (hc : ns.min_rtt_fluctuation_collection = true)
    (hlen : ns.rtt_samples.length = RTT_SAMPLE_MAX)
    (hn : ns.rtt_sample_count
      + evs.countP (fun d => (kstrtouint (rtt_text d)).isSome) ≤ RTT_SAMPLE_MAX) :
    ∃ g1 ns1, run g ns evs = some (g1, ns1) ∧
      ns1.min_rtt_fluctuation_collection = true ∧
      ns1.rtt_samples.length = RTT_SAMPLE_MAX ∧
      ns1.rtt_sample_count = ns.rtt_sample_count
        + evs.countP (fun d => (kstrtouint (rtt_text d)).isSome) ∧
      ns1.reconfiguration_min_rtt = ns.reconfiguration_min_rtt ∧
      ns1.reconfiguration_max_rtt = ns.reconfiguration_max_rtt ∧
      g1.min_rtt_fluctuation = g.min_rtt_fluctuation := by
  induction evs generalizing g ns with
  | nil => exact ⟨g, ns, rfl, hc, hlen, by simp, rfl, rfl, rfl⟩
  | cons d ds ih =>
    cases hp : kstrtouint (rtt_text d) with
    | none =>
      have hcp : (d :: ds).countP (fun d => (kstrtouint (rtt_text d)).isSome)
          = ds.countP (fun d => (kstrtouint (rtt_text d)).isSome) := by
        rw [List.countP_cons_of_neg]; simp [hp]
      rw [hcp] at hn ⊢
      have hstep := recv_collecting_invalid g ns d hc hp
      obtain ⟨f1, f2, f3, f4, f5, f6⟩ := handle_reconfig_frame
        (expire_trigger g ns (cur_time_ms d)) ns d (cur_time_ms d)
      obtain ⟨g1, ns1, hrun, h1, h2, h3, h4, h5, h6⟩ :=
        ih (handle_reconfig (expire_trigger g ns (cur_time_ms d)) ns d (cur_time_ms d)).1
          (handle_reconfig (expire_trigger g ns (cur_time_ms d)) ns d (cur_time_ms d)).2
          (f3.trans hc) (by rw [f1]; exact hlen) (by rw [f2]; exact hn)
      refine ⟨g1, ns1, by simp only [run, hstep]; exact hrun, h1, h2, h3.trans (by rw [f2]),
        h4.trans f4, h5.trans f5, h6.trans (f6.trans (expire_trigger_fluctuation _ _ _))⟩
    | some v =>
      have hcp : (d :: ds).countP (fun d => (kstrtouint (rtt_text d)).isSome)
          = ds.countP (fun d => (kstrtouint (rtt_text d)).isSome) + 1 := by
        rw [List.countP_cons_of_pos]; simp [hp]
      rw [hcp] at hn ⊢
      have hlt : ns.rtt_sample_count < RTT_SAMPLE_MAX := by omega
      have hstep := recv_collecting_append g ns d v hc hlt (by rw [hlen]; exact hlt) hp
      obtain ⟨f1, f2, f3, f4, f5, f6⟩ := handle_reconfig_frame
        (expire_trigger g ns (cur_time_ms d)) (store_sample ns v) d (cur_time_ms d)
      have s1 : (store_sample ns v).rtt_samples.length = RTT_SAMPLE_MAX := by
        simpa [store_sample] using hlen
      have s2 : (store_sample ns v).rtt_sample_count = ns.rtt_sample_count + 1 := rfl
      obtain ⟨g1, ns1, hrun, h1, h2, h3, h4, h5, h6⟩ :=
        ih (handle_reconfig (expire_trigger g ns (cur_time_ms d)) (store_sample ns v) d
            (cur_time_ms d)).1
          (handle_reconfig (expire_trigger g ns (cur_time_ms d)) (store_sample ns v) d
            (cur_time_ms d)).2
          (f3.trans hc) (by rw [f1]; exact s1) (by rw [f2, s2]; omega)
      refine ⟨g1, ns1, by simp only [run, hstep]; exact hrun, h1, h2,
        h3.trans (by rw [f2, s2]; omega), h4.trans f4, h5.trans f5,
        h6.trans (f6.trans (expire_trigger_fluctuation _ _ _))⟩

/-! ## The text that the parser reads -/

theorem takeWhile_append_stop (p : Nat → Bool) (a b : List Nat) (h : ∃ x ∈ a, p x = false) :
    (a ++ b).takeWhile p = a.takeWhile p := by
  induction a with
  | nil => obtain ⟨x, hx, _⟩ := h; simp at hx
  | cons y ys ih =>
    simp only [List.cons_append, List.takeWhile_cons]
    cases hy : p y with
    | false => rfl
    | true =>
      simp only [if_true]
      congr 1
      apply ih
      obtain ⟨x, hx, hpx⟩ := h
      rcases List.mem_cons.mp hx with rfl | hx
      · rw [hy] at hpx; exact absurd hpx (by simp)
      · exact ⟨x, hx, hpx⟩

theorem takeWhile_append_all (p : Nat → Bool) (a b : List Nat) (h : ∀ x ∈ a, p x = true) :
    (a ++ b).takeWhile p = a ++ b.takeWhile p := by
  induction a with
  | nil => rfl
  | cons y ys ih =>
    simp only [List.cons_append, List.takeWhile_cons, h y (List.mem_cons_self y ys), if_true]
    congr 1
    exact ih (fun x hx => h x (List.mem_cons_of_mem y hx))

/-- A text field that holds a NUL byte is read on its own. -/
theorem rtt_text_of_nul (data : rtt_data) (h : 0 ∈ text_bytes data) :
    rtt_text data = field_text data := by
  unfold rtt_text field_text
  rw [List.append_assoc, takeWhile_append_stop _ _ _ ⟨0, h, rfl⟩]

/-- With `is_reconfig = 0` the byte after the text field is NUL, so the field is
read on its own even when it holds no NUL. -/
theorem rtt_text_of_flag_zero (data : rtt_data) (h : data.is_reconfig = 0) :
    rtt_text data = field_text data := by
  unfold rtt_text field_text
  rw [h, List.append_assoc]
  by_cases hz : ∃ x ∈ text_bytes data, (x != 0) = false
  · rw [takeWhile_append_stop _ _ _ hz]
  · have hall : ∀ x ∈ text_bytes data, (x != 0) = true := by
      intro x hx
      by_contra hne
      exact hz ⟨x, hx, by simpa using hne⟩
    rw [takeWhile_append_all _ _ _ hall]
    have e1 : (u32_bytes 0 ++ data.trailing).takeWhile (fun b => b != 0) = [] := rfl
    have e2 : (text_bytes data).takeWhile (fun b => b != 0) = text_bytes data :=
      List.takeWhile_eq_self_iff.mpr hall
    rw [e1, e2, List.append_nil]

/-- C1: starting from a freshly initialised context, after every event of every
finite sequence of telemetry events (any timestamps, texts and flags) the handler
has returned and `rtt_sample_count` is at most `RTT_SAMPLE_MAX` (100). The
statement ranges over every prefix `evs.take k` of the sequence. -/
theorem sample_count_bounded (ns0 : leocc_nl_ns) (sk : Nat) (g : Globals)
    (evs : List rtt_data) (k : Nat)
    (hlen : ns0.rtt_samples.length = RTT_SAMPLE_MAX) (hsk : sk ≠ 0) :
    (leocc_nl_init_net ns0 sk).1 = 0 ∧
    (leocc_nl_init_net ns0 sk).2.rtt_sample_count = 0 ∧
    (leocc_nl_init_net ns0 sk).2.min_rtt_fluctuation_collection = false ∧
    (leocc_nl_init_net ns0 sk).2.reconfiguration_trigger_time_ms = 0 ∧
    ∃ g1 ns1, run g (leocc_nl_init_net ns0 sk).2 (evs.take k) = some (g1, ns1) ∧
      ns1.rtt_sample_count ≤ 100 := by
  refine ⟨by simp [leocc_nl_init_net, hsk], by simp [leocc_nl_init_net, hsk],
    by simp [leocc_nl_init_net, hsk], by simp [leocc_nl_init_net, hsk], ?_⟩
  obtain ⟨g1, ns1, hr, hw⟩ := run_wf (evs.take k) g _ (init_wf ns0 sk hlen hsk)
  exact ⟨g1, ns1, hr, hw.2⟩

/-- Witness for C1: a reconfiguration event with settle time zero followed by
one hundred and two samples, from zeroed storage. -/
theorem sample_count_bounded_witness :
    ∃ g1 ns1, run g_clear (leocc_nl_init_net ns_zero 1).2
        ((ev_at 1 0 "0" 1 :: List.replicate 102 (ev_at 1 5 "700" 0)).take 103) = some (g1, ns1) ∧
      ns1.rtt_sample_count ≤ 100 :=
  (sample_count_bounded ns_zero 1 g_clear
    (ev_at 1 0 "0" 1 :: List.replicate 102 (ev_at 1 5 "700" 0)) 103 (by decide) (by decide)).2.2.2.2

/-- Counterexample for C2: a collecting context with an empty buffer receives
one hundred non-reconfiguration events with text `700`. After the hundredth the
buffer is full but no reduction has taken place: the context still collects and
`reconfiguration_min_rtt`, `reconfiguration_max_rtt` hold their start-of-window
values, not `sorted(v)[5] = sorted(v)[95] = 700`. -/
theorem reduction_on_hundredth_counterexample :
    ns_collecting.min_rtt_fluctuation_collection = true ∧
    ns_collecting.rtt_sample_count = 0 ∧
    (run g_clear ns_collecting (List.replicate 100 (ev_at 1 0 "700" 0))).map
        (fun r => (r.2.min_rtt_fluctuation_collection, r.2.rtt_sample_count,
          r.2.reconfiguration_min_rtt, r.2.reconfiguration_max_rtt))
      = some (true, 100, 4294967295, 0) ∧
    (sort compare_func (List.replicate 100 700))[5]? = some 700 ∧
    (sort compare_func (List.replicate 100 700))[95]? = some 700 := by
  decide

/-- C2, amended: for every context that is collecting with an empty buffer and
every sequence of exactly one hundred non-reconfiguration events whose texts
parse to `v_0 .. v_99`: after the hundredth event the buffer is full
(`rtt_sample_count = 100`) and no reduction has run (the context still collects;
`reconfiguration_min_rtt`, `reconfiguration_max_rtt` and `min_rtt_fluctuation`
are unchanged); the reduction takes place when the next non-reconfiguration
event with a parseable text is processed, and then
`reconfiguration_min_rtt = sorted(v)[5]`, `reconfiguration_max_rtt = sorted(v)[95]`
and `min_rtt_fluctuation` is their difference. Here `s` is any ascending
rearrangement of `v`. -/
theorem reduction_after_full_buffer (g : Globals) (ns : leocc_nl_ns)
    (evs : List rtt_data) (vs : List Nat) (e : rtt_data) (w : Nat) (s : List Nat)
    (hlen : ns.rtt_samples.length = RTT_SAMPLE_MAX)
    (hc : ns.min_rtt_fluctuation_collection = true)
    (h0 : ns.rtt_sample_count = 0)
    (hn : evs.length = 100)
    (hr : ∀ d ∈ evs, d.is_reconfig ≠ 1)
    (hp : evs.map (fun d => kstrtouint (rtt_text d)) = vs.map some)
    (her : e.is_reconfig ≠ 1)
    (hep : kstrtouint (rtt_text e) = some w)
    (hs : s.Sorted (· ≤ ·)) (hperm : s.Perm vs) :
    (∃ g1 ns1, run g ns evs = some (g1, ns1) ∧
      ns1.min_rtt_fluctuation_collection = true ∧
      ns1.rtt_sample_count = 100 ∧
      ns1.reconfiguration_min_rtt = ns.reconfiguration_min_rtt ∧
      ns1.reconfiguration_max_rtt = ns.reconfiguration_max_rtt ∧
      g1.min_rtt_fluctuation = g.min_rtt_fluctuation) ∧
    (∃ g2 ns2, run g ns (evs ++ [e]) = some (g2, ns2) ∧
      ns2.min_rtt_fluctuation_collection = false ∧
      s[5]? = some ns2.reconfiguration_min_rtt ∧
      s[95]? = some ns2.reconfiguration_max_rtt ∧
      ns2.reconfiguration_min_rtt ≤ ns2.reconfiguration_max_rtt ∧
      g2.min_rtt_fluctuation = ns2.reconfiguration_max_rtt - ns2.reconfiguration_min_rtt) := by
  obtain ⟨g1, ns1, hrun, h1, h2, h3, h4, h5, h6, _, _, h9⟩ :=
    run_collect evs vs g ns hc hlen (by rw [h0, hn]; decide) hr hp
  rw [h0, hn] at h3
  simp only [Nat.zero_add] at h3
  refine ⟨⟨g1, ns1, hrun, h1, h3, h5, h6, h9⟩, ?_⟩
  rw [h0] at h4
  simp only [List.take_zero, List.nil_append] at h4
  obtain ⟨lo, hi, hlo, hhi, hstep⟩ := recv_full_reduce g1 ns1 e w h1 h2 h3 hep
  rw [h4, sort_eq_of_sorted_perm s vs hs hperm] at hlo hhi
  rw [handle_reconfig_of_ne _ _ _ _ her] at hstep
  have hle : lo ≤ hi := sorted_getElem?_le s 5 95 lo hi hs (by decide) hlo hhi
  have hmem : hi ∈ vs := by
    obtain ⟨hlt, rfl⟩ := List.getElem?_eq_some_iff.mp hhi
    exact hperm.mem_iff.mp (List.getElem_mem hlt)
  have hbound : hi ≤ U32_MAX := by
    have hm2 : some hi ∈ vs.map some := List.mem_map_of_mem some hmem
    rw [← hp] at hm2
    obtain ⟨d, _, hd⟩ := List.mem_map.mp hm2
    exact kstrtouint_le _ _ hd
  obtain ⟨g2, ns2, hstep2, hc2, hmin, hmax, hfl⟩ : ∃ g2 ns2,
      netlink_recv_msg g1 ns1 e = some (g2, ns2) ∧
      ns2.min_rtt_fluctuation_collection = false ∧
      ns2.reconfiguration_min_rtt = lo ∧ ns2.reconfiguration_max_rtt = hi ∧
      g2.min_rtt_fluctuation = u32_sub hi lo := ⟨_, _, hstep, rfl, rfl, rfl, rfl⟩
  refine ⟨g2, ns2, ?_, hc2, ?_, ?_, ?_, ?_⟩
  · rw [run_append, hrun]
    simp only [Option.bind, run, hstep2]
  · rw [hmin]; exact hlo
  · rw [hmax]; exact hhi
  · rw [hmin, hmax]; exact hle
  · rw [hfl, hmin, hmax]
    exact u32_sub_of_le hi lo hle hbound

/-- Witness for C2: fifty samples of 900 followed by fifty of 300, then one more
event: the reduction yields 300, 900 and fluctuation 600. -/
theorem reduction_after_full_buffer_witness :
    ∃ g2 ns2, run g_clear ns_collecting
        ((List.replicate 50 (ev_at 1 0 "900" 0) ++ List.replicate 50 (ev_at 1 0 "300" 0))
          ++ [ev_at 1 0 "1" 0]) = some (g2, ns2) ∧
      ns2.reconfiguration_min_rtt = 300 ∧ ns2.reconfiguration_max_rtt = 900 ∧
      g2.min_rtt_fluctuation = 600 := by
  obtain ⟨g2, ns2, hrun, _, hlo, hhi, _, hf⟩ :=
    (reduction_after_full_buffer g_clear ns_collecting
      (List.replicate 50 (ev_at 1 0 "900" 0) ++ List.replicate 50 (ev_at 1 0 "300" 0))
      (List.replicate 50 900 ++ List.replicate 50 300) (ev_at 1 0 "1" 0) 1
      (List.replicate 50 300 ++ List.replicate 50 900)
      (by decide) (by decide) (by decide) (by decide) (by decide) (by decide) (by decide)
      (by decide) (by decide) List.perm_append_comm).2
  have h5 : (List.replicate 50 300 ++ List.replicate 50 900)[5]? = some 300 := by decide
  have h95 : (List.replicate 50 300 ++ List.replicate 50 900)[95]? = some 900 := by decide
  have e1 : ns2.reconfiguration_min_rtt = 300 := (Option.some.inj (hlo.symm.trans h5))
  have e2 : ns2.reconfiguration_max_rtt = 900 := (Option.some.inj (hhi.symm.trans h95))
  exact ⟨g2, ns2, hrun, e1, e2, by rw [hf, e1, e2]⟩

/-- C3: for every context with `1 ≤ rtt_sample_count ≤ 100` and percentiles
`low, high < 100`, the reducer `mpf` returns, and afterwards
`reconfiguration_min_rtt = s[count * low / 100]` and
`reconfiguration_max_rtt = s[count * high / 100]`, where `s` is the ascending
sort of the first `count` entries of `rtt_samples` (any ascending list that is a
rearrangement of them) and the division is integer division; the global
`min_rtt_fluctuation` is the `u32` difference max minus min. -/
theorem mpf_percentiles (g : Globals) (ns : leocc_nl_ns) (low high : Nat) (s : List Nat)
    (hlen : ns.rtt_samples.length = RTT_SAMPLE_MAX)
    (h1 : 1 ≤ ns.rtt_sample_count) (h2 : ns.rtt_sample_count ≤ 100)
    (hl : low < 100) (hh : high < 100)
    (hs : s.Sorted (· ≤ ·)) (hp : s.Perm (ns.rtt_samples.take ns.rtt_sample_count)) :
    ∃ g1 ns1, mpf g ns low high = some (g1, ns1) ∧
      s[ns.rtt_sample_count * low / 100]? = some ns1.reconfiguration_min_rtt ∧
      s[ns.rtt_sample_count * high / 100]? = some ns1.reconfiguration_max_rtt ∧
      g1.min_rtt_fluctuation
        = (ns1.reconfiguration_max_rtt + 4294967296 - ns1.reconfiguration_min_rtt)
            % 4294967296 := by
  obtain ⟨lo, hi, hlo, hhi, hm⟩ := mpf_some g ns low high h1 h2 (by rw [hlen]; exact h2) hl hh
  rw [sort_eq_of_sorted_perm s _ hs hp] at hlo hhi
  exact ⟨_, _, hm, hlo, hhi, rfl⟩

/-- Witness for C3: the samples `v_i = 100 + i` with bounds `(5, 95)` give
105, 195 and fluctuation 90. -/
theorem mpf_percentiles_witness :
    ∃ g1 ns1, mpf g_clear ns_ramp 5 95 = some (g1, ns1) ∧
      ns1.reconfiguration_min_rtt = 105 ∧ ns1.reconfiguration_max_rtt = 195 ∧
      g1.min_rtt_fluctuation = 90 := by
  obtain ⟨g1, ns1, hm, hlo, hhi, hf⟩ := mpf_percentiles g_clear ns_ramp 5 95
    (List.range' 100 100) (by decide) (by decide) (by decide) (by decide) (by decide)
    (List.pairwise_le_range' 100 100) (List.Perm.refl _)
  have e1 : ns1.reconfiguration_min_rtt = 105 := by
    have h5 : (List.range' 100 100)[ns_ramp.rtt_sample_count * 5 / 100]? = some 105 := by decide
    rw [h5] at hlo
    exact (Option.some.inj hlo).symm
  have e2 : ns1.reconfiguration_max_rtt = 195 := by
    have h95 : (List.range' 100 100)[ns_ramp.rtt_sample_count * 95 / 100]? = some 195 := by
      decide
    rw [h95] at hhi
    exact (Option.some.inj hhi).symm
  refine ⟨g1, ns1, hm, e1, e2, ?_⟩
  rw [hf, e1, e2]

/-- Counterexample for C4: a fresh context that received a reconfiguration event
with text `150000` at `T = 2^64 - 100` ms has trigger time `T` and settle delay
`S = 150`. A sample event at `t = T` has `t < T + S`, yet the handler starts the
collection and records the sample, because the sum it compares with wraps to 50. -/
theorem collection_start_timing_counterexample :
    (run g_clear ns_fresh [ev_at 18446744073709551 516 "150000" 1]).map (fun r => r.2)
      = some ns_late ∧
    ns_late.min_rtt_fluctuation_collection = false ∧
    0 < ns_late.reconfiguration_trigger_time_ms ∧
    (ev_at 18446744073709551 516 "700" 0).is_reconfig ≠ 1 ∧
    cur_time_ms (ev_at 18446744073709551 516 "700" 0)
      < ns_late.reconfiguration_trigger_time_ms + ns_late.reconfiguration_rtt_ms ∧
    (netlink_recv_msg g_clear ns_late (ev_at 18446744073709551 516 "700" 0)).map
        (fun r => (r.2.min_rtt_fluctuation_collection, r.2.rtt_sample_count))
      = some (true, 1) := by
  decide

/-- C4, amended: for every context with `collecting = false`, trigger time
`T > 0` and settle delay `S`, and every event with timestamp `t`, the handler
compares `t` with the `u64` sum `(T + S) mod 2^64`, which is `T + S` whenever
`T + S < 2^64`: if `t` is at least that sum, the collection-start block sets the
collection flag and restarts the window (count 0, `reconfiguration_min_rtt` and
the local minimum at `U32_MAX`, `reconfiguration_max_rtt` and the local maximum
at 0) before the sample of that event is recorded, so that after the whole event
the context collects with `rtt_sample_count ≤ 1`; if `t` is below that sum and
the event is not a reconfiguration event, the handler leaves the context
unchanged. -/
theorem collection_start_timing (g : Globals) (ns : leocc_nl_ns) (data : rtt_data)
    (hlen : ns.rtt_samples.length = RTT_SAMPLE_MAX)
    (hc : ns.min_rtt_fluctuation_collection = false)
    (hT : 0 < ns.reconfiguration_trigger_time_ms) :
    (u64_add ns.reconfiguration_trigger_time_ms ns.reconfiguration_rtt_ms ≤ cur_time_ms data →
      start_collection ns (cur_time_ms data) =
        { ns with
          min_rtt_fluctuation_collection := true
          rtt_sample_count := 0
          reconfiguration_min_rtt := 4294967295
          reconfiguration_max_rtt := 0
          local_rtt_sample_min := 4294967295
          local_rtt_sample_max := 0 } ∧
      ∃ g1 ns1, netlink_recv_msg g ns data = some (g1, ns1) ∧
        ns1.min_rtt_fluctuation_collection = true ∧ ns1.rtt_sample_count ≤ 1) ∧
    (cur_time_ms data < u64_add ns.reconfiguration_trigger_time_ms ns.reconfiguration_rtt_ms →
      data.is_reconfig ≠ 1 →
      ∃ g1, netlink_recv_msg g ns data = some (g1, ns)) ∧
    (ns.reconfiguration_trigger_time_ms + ns.reconfiguration_rtt_ms < 18446744073709551616 →
      u64_add ns.reconfiguration_trigger_time_ms ns.reconfiguration_rtt_ms
        = ns.reconfiguration_trigger_time_ms + ns.reconfiguration_rtt_ms) := by
  refine ⟨?_, ?_, fun h => Nat.mod_eq_of_lt h⟩
  · intro ht
    have hs : start_collection ns (cur_time_ms data) =
        { ns with
          min_rtt_fluctuation_collection := true
          rtt_sample_count := 0
          reconfiguration_min_rtt := 4294967295
          reconfiguration_max_rtt := 0
          local_rtt_sample_min := 4294967295
          local_rtt_sample_max := 0 } := by
      simp [start_collection, hc, hT, ht, U32_MAX]
    refine ⟨hs, ?_⟩
    have hsc : (start_collection ns (cur_time_ms data)).min_rtt_fluctuation_collection = true := by
      rw [hs]
    have hs0 : (start_collection ns (cur_time_ms data)).rtt_sample_count = 0 := by rw [hs]
    have hsl : (start_collection ns (cur_time_ms data)).rtt_samples.length = RTT_SAMPLE_MAX := by
      rw [hs]; exact hlen
    cases hp : kstrtouint (rtt_text data) with
    | none =>
      have hf := handle_reconfig_frame (expire_trigger g ns (cur_time_ms data))
        (start_collection ns (cur_time_ms data)) data (cur_time_ms data)
      exact ⟨_, _, recv_of_record _ _ _ _ _ (record_sample_invalid _ _ _ hsc hp),
        hf.2.2.1.trans hsc, le_of_eq_of_le (hf.2.1.trans hs0) (Nat.zero_le 1)⟩
    | some v =>
      have hf := handle_reconfig_frame (expire_trigger g ns (cur_time_ms data))
        (store_sample (start_collection ns (cur_time_ms data)) v) data (cur_time_ms data)
      have h1 : (store_sample (start_collection ns (cur_time_ms data)) v).rtt_sample_count
          = 1 := by
        simp only [store_sample, hs0]
      exact ⟨_, _, recv_of_record _ _ _ _ _ (record_sample_append _ _ _ v hsc
        (by rw [hs0]; decide) (by rw [hs0, hsl]; decide) hp),
        hf.2.2.1.trans hsc, le_of_eq (hf.2.1.trans h1)⟩
  · intro ht hr
    have hs : start_collection ns (cur_time_ms data) = ns := by
      simp [start_collection, hc, hT, Nat.not_le.mpr ht]
    refine ⟨expire_trigger g ns (cur_time_ms data), ?_⟩
    rw [recv_not_collecting g ns data (by rw [hs]; exact hc), hs, handle_reconfig_of_ne _ _ _ _ hr]

/-- Witness for C4: trigger at 1000 ms with settle 50 ms; an event at 1060 ms
starts the collection, an event at 1040 ms changes nothing. -/
theorem collection_start_timing_witness :
    (∃ g1 ns1, netlink_recv_msg g_clear ns_pending (ev_at 1 60 "700" 0) = some (g1, ns1) ∧
      ns1.min_rtt_fluctuation_collection = true ∧ ns1.rtt_sample_count ≤ 1) ∧
    (∃ g1, netlink_recv_msg g_clear ns_pending (ev_at 1 40 "700" 0) = some (g1, ns_pending)) :=
  ⟨((collection_start_timing g_clear ns_pending (ev_at 1 60 "700" 0) (by decide) (by decide)
      (by decide)).1 (by decide)).2,
   (collection_start_timing g_clear ns_pending (ev_at 1 40 "700" 0) (by decide) (by decide)
      (by decide)).2.1 (by decide) (by decide)⟩

/-- C5: for every (well-formed) context state, every global state and every
event with `is_reconfig` set, the handler returns and afterwards
`global_reconfiguration_trigger` is true, whether or not the text of the event
parses as an unsigned decimal integer. -/
theorem reconfig_sets_trigger (g : Globals) (ns : leocc_nl_ns) (data : rtt_data)
    (hw : wf ns) (hr : data.is_reconfig = 1) :
    ∃ g1 ns1, netlink_recv_msg g ns data = some (g1, ns1) ∧
      g1.global_reconfiguration_trigger = true := by
  obtain ⟨g2, ns2, hrec, _⟩ := record_sample_wf (expire_trigger g ns (cur_time_ms data))
    (start_collection ns (cur_time_ms data)) data (start_collection_wf ns _ hw)
  exact ⟨_, _, by simp only [netlink_recv_msg, hrec]; rfl, handle_reconfig_trigger _ _ _ _ hr⟩

/-- Witness for C5: one reconfiguration event whose text parses and one whose
text does not. -/
theorem reconfig_sets_trigger_witness :
    (kstrtouint (rtt_text (ev_at 1 0 "50000" 1)) = some 50000 ∧
      ∃ g1 ns1, netlink_recv_msg g_clear ns_fresh (ev_at 1 0 "50000" 1) = some (g1, ns1) ∧
        g1.global_reconfiguration_trigger = true) ∧
    (kstrtouint (rtt_text (ev_at 1 0 "abc" 1)) = none ∧
      ∃ g1 ns1, netlink_recv_msg g_clear ns_fresh (ev_at 1 0 "abc" 1) = some (g1, ns1) ∧
        g1.global_reconfiguration_trigger = true) :=
  ⟨⟨by decide, reconfig_sets_trigger g_clear ns_fresh (ev_at 1 0 "50000" 1) (by decide)
      (by decide)⟩,
   ⟨by decide, reconfig_sets_trigger g_clear ns_fresh (ev_at 1 0 "abc" 1) (by decide)
      (by decide)⟩⟩

/-- C6, the code at the failing input: a fresh context receives a reconfiguration
event at 1000 ms with text `50000` (settle delay 50 ms), then one sample per
millisecond from 1050 ms to 1150 ms. The 101st sample closes the window and the
handler resets the trigger time to 0, so the expiry block, which requires a
positive trigger time, never fires again: the global trigger, set at 1000 ms, is
still true after events at 1200 ms, 2000 ms and 60000 ms. -/
theorem trigger_never_expires :
    (run g_clear ns_fresh (ev_at 1 0 "50000" 1 :: ev_burst)).map
        (fun r => (r.1.global_reconfiguration_trigger, r.2.min_rtt_fluctuation_collection,
          r.2.reconfiguration_trigger_time_ms))
      = some (true, false, 0) ∧
    cur_time_ms (ev_at 1 0 "50000" 1) + 200 ≤ cur_time_ms (ev_at 1 200 "700" 0) ∧
    (run g_clear ns_fresh (ev_at 1 0 "50000" 1 :: ev_burst ++ [ev_at 1 200 "700" 0])).map
        (fun r => r.1.global_reconfiguration_trigger) = some true ∧
    (run g_clear ns_fresh (ev_at 1 0 "50000" 1 :: ev_burst
        ++ [ev_at 1 200 "700" 0, ev_at 2 0 "700" 0, ev_at 60 0 "700" 0])).map
        (fun r => r.1.global_reconfiguration_trigger) = some true := by
  decide

/-- C7: for every context that is already collecting and every
non-reconfiguration event whose text does not parse, the handler leaves the
whole context unchanged (count, buffer, local extrema, collection flag, trigger
time, settle delay, percentile bounds) and leaves `min_rtt_fluctuation`
unchanged; of the global state only the trigger may change, through the expiry
block. -/
theorem invalid_sample_dropped (g : Globals) (ns : leocc_nl_ns) (data : rtt_data)
    (hc : ns.min_rtt_fluctuation_collection = true)
    (hr : data.is_reconfig ≠ 1)
    (hp : kstrtouint (rtt_text data) = none) :
    netlink_recv_msg g ns data = some (expire_trigger g ns (cur_time_ms data), ns) ∧
    (expire_trigger g ns (cur_time_ms data)).min_rtt_fluctuation = g.min_rtt_fluctuation := by
  refine ⟨?_, expire_trigger_fluctuation g ns _⟩
  rw [recv_collecting_invalid g ns data hc hp, handle_reconfig_of_ne _ _ _ _ hr]

/-- Witness for C7: a collecting context receives the text `12a`. -/
theorem invalid_sample_dropped_witness :
    kstrtouint (rtt_text (ev_at 1 0 "12a" 0)) = none ∧
    netlink_recv_msg g_clear ns_collecting (ev_at 1 0 "12a" 0)
      = some (expire_trigger g_clear ns_collecting (cur_time_ms (ev_at 1 0 "12a" 0)),
          ns_collecting) :=
  ⟨by decide,
   (invalid_sample_dropped g_clear ns_collecting (ev_at 1 0 "12a" 0) (by decide) (by decide)
      (by decide)).1⟩

/-- Counterexample for C8: an idle context (not collecting, no pending trigger)
with the global trigger clear receives a reconfiguration event at 1000 ms with
text `50000`. The event sets the global trigger and records trigger time 1000 and
settle delay 50, so it is not a no-op; delivered a second time it changes
nothing further, but the state differs from the initial one. -/
theorem idle_noop_counterexample :
    ns_fresh.min_rtt_fluctuation_collection = false ∧
    ns_fresh.reconfiguration_trigger_time_ms = 0 ∧
    netlink_recv_msg g_clear ns_fresh (ev_at 1 0 "50000" 1)
      = some ({ g_clear with global_reconfiguration_trigger := true },
          { ns_fresh with reconfiguration_trigger_time_ms := 1000
                          reconfiguration_rtt_ms := 50 }) ∧
    netlink_recv_msg g_clear ns_fresh (ev_at 1 0 "50000" 1) ≠ some (g_clear, ns_fresh) ∧
    run g_clear ns_fresh [ev_at 1 0 "50000" 1, ev_at 1 0 "50000" 1]
      ≠ some (g_clear, ns_fresh) := by
  decide

/-- C8, amended: for every context with `collecting = false` and no pending
trigger (`reconfiguration_trigger_time_ms = 0`), every global state, and every
telemetry event that is not a reconfiguration event (any timestamp, any text),
processing the event leaves the context and the global state unchanged, and
processing the same event a second time leaves them unchanged again. -/
theorem idle_noop (g : Globals) (ns : leocc_nl_ns) (e : rtt_data)
    (hc : ns.min_rtt_fluctuation_collection = false)
    (hT : ns.reconfiguration_trigger_time_ms = 0)
    (hr : e.is_reconfig ≠ 1) :
    netlink_recv_msg g ns e = some (g, ns) ∧ run g ns [e, e] = some (g, ns) := by
  have hs : start_collection ns (cur_time_ms e) = ns := by
    simp [start_collection, hT]
  have hx : expire_trigger g ns (cur_time_ms e) = g := by
    simp [expire_trigger, hT]
  have h1 : netlink_recv_msg g ns e = some (g, ns) := by
    rw [recv_not_collecting g ns e (by rw [hs]; exact hc), hs, hx,
      handle_reconfig_of_ne _ _ _ _ hr]
  exact ⟨h1, by simp only [run, h1]⟩

/-- Witness for C8: an idle context receives a sample event twice. -/
theorem idle_noop_witness :
    netlink_recv_msg g_clear ns_fresh (ev_at 1 0 "700" 0) = some (g_clear, ns_fresh) ∧
    run g_clear ns_fresh [ev_at 1 0 "700" 0, ev_at 1 0 "700" 0] = some (g_clear, ns_fresh) :=
  idle_noop g_clear ns_fresh (ev_at 1 0 "700" 0) (by decide) (by decide) (by decide)

/-- Counterexample for C9: (a) from a fresh context, a reconfiguration event at
1000 ms with text `50000`, an event at 1040 ms, an event at 1060 ms whose text
`abc` does not parse, then one hundred events with text `700`. After the
hundredth the buffer is full but the context still collects and the trigger time
is still 1000: the reduction has not fired. (b) When the text field of the
reconfiguration event is filled by the sixteen characters `0000000000050000`
(50000 as a decimal string, settle delay 50) the handler's parse runs on into
`is_reconfig` and fails, no trigger time is recorded and the event at 1060 ms
does not start a collection. -/
theorem scenario_counterexample :
    (run g_clear ns_fresh
        ([ev_at 1 0 "50000" 1, ev_at 1 40 "700" 0, ev_at 1 60 "abc" 0]
          ++ List.replicate 100 (ev_at 1 60 "700" 0))).map
        (fun r => (r.2.min_rtt_fluctuation_collection, r.2.rtt_sample_count,
          r.2.reconfiguration_trigger_time_ms))
      = some (true, 100, 1000) ∧
    kstrtouint (field_text (ev_at 1 0 "0000000000050000" 1)) = some 50000 ∧
    (run g_clear ns_fresh
        [ev_at 1 0 "0000000000050000" 1, ev_at 1 40 "700" 0, ev_at 1 60 "700" 0]).map
        (fun r => (r.2.min_rtt_fluctuation_collection, r.2.reconfiguration_trigger_time_ms))
      = some (false, 0) := by
  decide

/-- C9, amended: from a freshly initialised context, a reconfiguration event at
1000 ms whose text is NUL-terminated within its 16-byte field and parses to a
value giving settle delay 50 records trigger time 1000; a non-reconfiguration
event at 1040 ms (any text) leaves `collecting = false`; a non-reconfiguration
event at 1060 ms whose text parses starts the collection with the window
counters reset and is itself recorded as the first sample; then for every
sequence of one hundred further non-reconfiguration events with parseable texts
(whatever their timestamps) the context still collects after each of the first
ninety-nine, and after the hundredth `collecting = false` and the trigger time
is 0. -/
theorem scenario (ns0 : leocc_nl_ns) (sk : Nat) (g : Globals) (e0 e1 e2 : rtt_data)
    (evs : List rtt_data) (v0 v2 : Nat)
    (hlen : ns0.rtt_samples.length = RTT_SAMPLE_MAX) (hsk : sk ≠ 0)
    (h0r : e0.is_reconfig = 1) (h0t : cur_time_ms e0 = 1000)
    (h0n : 0 ∈ text_bytes e0)
    (h0f : kstrtouint (field_text e0) = some v0) (h0s : v0 / 1000 = 50)
    (h1r : e1.is_reconfig ≠ 1) (h1t : cur_time_ms e1 = 1040)
    (h2r : e2.is_reconfig ≠ 1) (h2t : cur_time_ms e2 = 1060)
    (h2p : kstrtouint (rtt_text e2) = some v2)
    (hn : evs.length = 100)
    (hr : ∀ d ∈ evs, d.is_reconfig ≠ 1)
    (hpa : ∀ d ∈ evs, ∃ v, kstrtouint (rtt_text d) = some v) :
    (∃ ga na, run g (leocc_nl_init_net ns0 sk).2 [e0] = some (ga, na) ∧
      na.min_rtt_fluctuation_collection = false ∧
      na.reconfiguration_trigger_time_ms = 1000 ∧ na.reconfiguration_rtt_ms = 50) ∧
    (∃ gb nb, run g (leocc_nl_init_net ns0 sk).2 [e0, e1] = some (gb, nb) ∧
      nb.min_rtt_fluctuation_collection = false) ∧
    (∃ gc nc, run g (leocc_nl_init_net ns0 sk).2 [e0, e1, e2] = some (gc, nc) ∧
      nc.min_rtt_fluctuation_collection = true ∧ nc.rtt_sample_count = 1 ∧
      nc.rtt_samples[0]? = some v2 ∧
      nc.local_rtt_sample_min = v2 ∧ nc.local_rtt_sample_max = v2 ∧
      nc.reconfiguration_min_rtt = 4294967295 ∧ nc.reconfiguration_max_rtt = 0) ∧
    (∀ k, k < 100 →
      ∃ g1 ns1, run g (leocc_nl_init_net ns0 sk).2 ([e0, e1, e2] ++ evs.take k)
          = some (g1, ns1) ∧
        ns1.min_rtt_fluctuation_collection = true) ∧
    (∃ g1 ns1, run g (leocc_nl_init_net ns0 sk).2 ([e0, e1, e2] ++ evs) = some (g1, ns1) ∧
      ns1.min_rtt_fluctuation_collection = false ∧
      ns1.reconfiguration_trigger_time_ms = 0) := by
  have h0p : kstrtouint (rtt_text e0) = some v0 := by
    rw [rtt_text_of_nul e0 h0n]; exact h0f
  -- the freshly initialised context
  obtain ⟨ni, hni, hic, hit, hil⟩ : ∃ ni, (leocc_nl_init_net ns0 sk).2 = ni ∧
      ni.min_rtt_fluctuation_collection = false ∧
      ni.reconfiguration_trigger_time_ms = 0 ∧
      ni.rtt_samples.length = RTT_SAMPLE_MAX :=
    ⟨_, rfl, by simp [leocc_nl_init_net, hsk], by simp [leocc_nl_init_net, hsk],
      by simpa [leocc_nl_init_net, hsk] using hlen⟩
  rw [hni]
  -- the reconfiguration event at 1000 ms
  have hsi : start_collection ni (cur_time_ms e0) = ni := by
    simp [start_collection, hit]
  have hstep0 := recv_not_collecting g ni e0 (by rw [hsi]; exact hic)
  rw [hsi, handle_reconfig_parsed _ _ _ _ v0 h0r h0p, h0t, h0s] at hstep0
  obtain ⟨ga, na, hstepa, hac, hat, has, hal⟩ : ∃ ga na,
      netlink_recv_msg g ni e0 = some (ga, na) ∧
      na.min_rtt_fluctuation_collection = false ∧
      na.reconfiguration_trigger_time_ms = 1000 ∧ na.reconfiguration_rtt_ms = 50 ∧
      na.rtt_samples.length = RTT_SAMPLE_MAX := ⟨_, _, hstep0, hic, rfl, rfl, hil⟩
  -- the event at 1040 ms
  have hsa : start_collection na (cur_time_ms e1) = na := by
    simp [start_collection, hac, hat, has, h1t, u64_add, U64_MOD]
  have hstepb := recv_not_collecting ga na e1 (by rw [hsa]; exact hac)
  rw [hsa, handle_reconfig_of_ne _ _ _ _ h1r] at hstepb
  -- the event at 1060 ms
  have hv2 := kstrtouint_le _ _ h2p
  obtain ⟨nc, hnc, hcc, hc0, hcl, hct, hcmin, hcmax, hcrmin, hcrmax⟩ : ∃ nc,
      start_collection na (cur_time_ms e2) = nc ∧
      nc.min_rtt_fluctuation_collection = true ∧ nc.rtt_sample_count = 0 ∧
      nc.rtt_samples.length = RTT_SAMPLE_MAX ∧
      nc.reconfiguration_trigger_time_ms = 1000 ∧
      nc.local_rtt_sample_min = U32_MAX ∧ nc.local_rtt_sample_max = 0 ∧
      nc.reconfiguration_min_rtt = 4294967295 ∧ nc.reconfiguration_max_rtt = 0 := by
    refine ⟨_, rfl, ?_, ?_, ?_, ?_, ?_, ?_, ?_, ?_⟩ <;>
      simp [start_collection, hac, hat, has, h2t, u64_add, U64_MOD, hal, U32_MAX]
  have hstepc := recv_of_record (expire_trigger ga na (cur_time_ms e1)) _ na _ e2
    (record_sample_append (expire_trigger (expire_trigger ga na (cur_time_ms e1)) na
      (cur_time_ms e2)) (start_collection na (cur_time_ms e2)) e2 v2
      (by rw [hnc]; exact hcc) (by rw [hnc, hc0]; decide) (by rw [hnc, hc0, hcl]; decide) h2p)
  rw [handle_reconfig_of_ne _ _ _ _ h2r, hnc] at hstepc
  have hrun3 : run g ni [e0, e1, e2] = some
      (expire_trigger (expire_trigger ga na (cur_time_ms e1)) na (cur_time_ms e2),
        store_sample nc v2) := by
    simp only [run, hstepa, hstepb, hstepc]
  have hsc : (store_sample nc v2).min_rtt_fluctuation_collection = true := hcc
  have hsl : (store_sample nc v2).rtt_samples.length = RTT_SAMPLE_MAX := by
    simpa [store_sample] using hcl
  have hs1 : (store_sample nc v2).rtt_sample_count = 1 := by
    simp [store_sample, hc0]
  have hwin := run_window evs
    (expire_trigger (expire_trigger ga na (cur_time_ms e1)) na (cur_time_ms e2))
    (store_sample nc v2) hsc hsl (by rw [hs1]; decide) (by rw [hs1, hn]; rfl) hr hpa
  refine ⟨⟨ga, na, by simp only [run, hstepa], hac, hat, has⟩,
    ⟨expire_trigger ga na (cur_time_ms e1), na, by simp only [run, hstepa, hstepb], hac⟩,
    ⟨_, _, hrun3, hsc, hs1, ?_, ?_, ?_, hcrmin, hcrmax⟩, ?_, ?_⟩
  · have h0l : 0 < nc.rtt_samples.length := by rw [hcl]; decide
    simp [store_sample, hc0, h0l]
  · unfold U32_MAX at hcmin hv2
    simp only [store_sample, hcmin]
    split_ifs <;> omega
  · simp only [store_sample, hcmax]
    split_ifs <;> omega
  · intro k hk
    obtain ⟨g1, ns1, hrun, h1, _⟩ := hwin.1 k (by rw [hn]; exact hk)
    exact ⟨g1, ns1, by rw [run_append, hrun3]; exact hrun, h1⟩
  · obtain ⟨g1, ns1, hrun, h1, h2⟩ := hwin.2
    exact ⟨g1, ns1, by rw [run_append, hrun3]; exact hrun, h1, h2⟩

/-- Witness for C9: the scenario with texts `50000`, `700`, `700` and one
hundred further samples of `700` at 1070 ms. -/
theorem scenario_witness :
    ∃ g1 ns1, run g_clear (leocc_nl_init_net ns_zero 1).2
        ([ev_at 1 0 "50000" 1, ev_at 1 40 "700" 0, ev_at 1 60 "700" 0]
          ++ List.replicate 100 (ev_at 1 70 "700" 0)) = some (g1, ns1) ∧
      ns1.min_rtt_fluctuation_collection = false ∧
      ns1.reconfiguration_trigger_time_ms = 0 :=
  (scenario ns_zero 1 g_clear (ev_at 1 0 "50000" 1) (ev_at 1 40 "700" 0) (ev_at 1 60 "700" 0)
    (List.replicate 100 (ev_at 1 70 "700" 0)) 50000 700
    (by decide) (by decide) (by decide) (by decide) (by decide) (by decide) (by decide)
    (by decide) (by decide) (by decide) (by decide) (by decide) (by decide)
    (fun d hd => by rw [List.eq_of_mem_replicate hd]; decide)
    (fun d hd => ⟨700, by rw [List.eq_of_mem_replicate hd]; decide⟩)).2.2.2.2

/-- Counterexample for C10: (a) a collecting context with an empty buffer
receives a reconfiguration event at 1000 ms with text `50000`. Afterwards the
trigger time is 1000 but the context still collects (the value was recorded as a
sample), so it is not in the PENDING state. (b) A collecting context with a full
buffer receives a reconfiguration event whose text field is filled by the
sixteen characters `0000000000050000`: the handler's parse runs on into
`is_reconfig` and fails, so the context still collects and no trigger time is
recorded. -/
theorem reconfig_mid_collection_counterexample :
    ns_collecting.min_rtt_fluctuation_collection = true ∧
    kstrtouint (rtt_text (ev_at 1 0 "50000" 1)) = some 50000 ∧
    0 < cur_time_ms (ev_at 1 0 "50000" 1) ∧
    (netlink_recv_msg g_clear ns_collecting (ev_at 1 0 "50000" 1)).map
        (fun r => (r.2.min_rtt_fluctuation_collection, r.2.rtt_sample_count,
          r.2.reconfiguration_trigger_time_ms))
      = some (true, 1, 1000) ∧
    ns_ramp.min_rtt_fluctuation_collection = true ∧
    kstrtouint (field_text (ev_at 1 0 "0000000000050000" 1)) = some 50000 ∧
    (netlink_recv_msg g_clear ns_ramp (ev_at 1 0 "0000000000050000" 1)).map
        (fun r => (r.2.min_rtt_fluctuation_collection, r.2.rtt_sample_count,
          r.2.reconfiguration_trigger_time_ms))
      = some (true, 100, 0) := by
  decide

/-- C10, amended: for every (well-formed) context with `collecting = true` and
every reconfiguration event whose text is NUL-terminated within its 16-byte
field and parses to `v` and whose timestamp is positive, after the event the
trigger time is that timestamp, hence positive, the settle delay is `v / 1000`
and the global trigger is set. With `rtt_sample_count = k < 100` the value is
recorded as a sample (`rtt_samples[k] = v`, count `k + 1`) and the context stays
COLLECTING. With `rtt_sample_count = 100` the event runs the reduction with
bounds `(5, 95)` over the stored samples (`reconfiguration_min_rtt = s[5]`,
`reconfiguration_max_rtt = s[95]` for the ascending rearrangement `s` of the
buffer, `min_rtt_fluctuation` their `u32` difference, the buffer afterwards is
`s`, the count stays 100, the value is not stored) and the context is in PENDING
(`collecting = false`). -/
theorem reconfig_mid_collection (g : Globals) (ns : leocc_nl_ns) (data : rtt_data) (v : Nat)
    (hw : wf ns)
    (hc : ns.min_rtt_fluctuation_collection = true)
    (hr : data.is_reconfig = 1)
    (hnul : 0 ∈ text_bytes data)
    (hpf : kstrtouint (field_text data) = some v)
    (ht : 0 < cur_time_ms data) :
    ∃ g1 ns1, netlink_recv_msg g ns data = some (g1, ns1) ∧
      ns1.reconfiguration_trigger_time_ms = cur_time_ms data ∧
      0 < ns1.reconfiguration_trigger_time_ms ∧
      ns1.reconfiguration_rtt_ms = v / 1000 ∧
      g1.global_reconfiguration_trigger = true ∧
      (ns.rtt_sample_count < 100 →
        ns1.min_rtt_fluctuation_collection = true ∧
        ns1.rtt_samples = ns.rtt_samples.set ns.rtt_sample_count v ∧
        ns1.rtt_samples[ns.rtt_sample_count]? = some v ∧
        ns1.rtt_sample_count = ns.rtt_sample_count + 1) ∧
      (ns.rtt_sample_count = 100 →
        ns1.min_rtt_fluctuation_collection = false ∧
        ns1.rtt_sample_count = 100 ∧
        g1.min_rtt_fluctuation
          = u32_sub ns1.reconfiguration_max_rtt ns1.reconfiguration_min_rtt ∧
        ∀ s : List Nat, s.Sorted (· ≤ ·) → s.Perm ns.rtt_samples →
          ns1.rtt_samples = s ∧
          s[5]? = some ns1.reconfiguration_min_rtt ∧
          s[95]? = some ns1.reconfiguration_max_rtt) := by
  have hp : kstrtouint (rtt_text data) = some v := by
    rw [rtt_text_of_nul data hnul]; exact hpf
  by_cases hn : ns.rtt_sample_count < RTT_SAMPLE_MAX
  · have hl : ns.rtt_sample_count < ns.rtt_samples.length := by rw [hw.1]; exact hn
    have hstep := recv_collecting_append g ns data v hc hn hl hp
    rw [handle_reconfig_parsed _ _ _ _ v hr hp] at hstep
    refine ⟨_, _, hstep, rfl, ht, rfl, rfl, fun _ => ⟨hc, rfl, ?_, rfl⟩, ?_⟩
    · exact List.getElem?_set_self hl
    · intro h
      unfold RTT_SAMPLE_MAX at hn
      omega
  · have h100 : ns.rtt_sample_count = RTT_SAMPLE_MAX := Nat.le_antisymm hw.2 (Nat.not_lt.mp hn)
    obtain ⟨lo, hi, hlo, hhi, hstep⟩ := recv_full_reduce g ns data v hc hw.1 h100 hp
    rw [handle_reconfig_parsed _ _ _ _ v hr hp] at hstep
    have htake : ns.rtt_samples.take ns.rtt_sample_count = ns.rtt_samples := by
      rw [h100]; exact List.take_of_length_le (by rw [hw.1])
    have hdrop : ns.rtt_samples.drop ns.rtt_sample_count = [] := by
      rw [h100]; exact List.drop_of_length_le (by rw [hw.1])
    rw [htake] at hlo hhi
    rw [htake, hdrop, List.append_nil] at hstep
    refine ⟨_, _, hstep, rfl, ht, rfl, rfl, ?_, fun _ => ⟨rfl, h100, rfl, ?_⟩⟩
    · intro h
      unfold RTT_SAMPLE_MAX at h100
      omega
    · intro s hs hperm
      have hsort := sort_eq_of_sorted_perm s _ hs hperm
      refine ⟨hsort, ?_, ?_⟩
      · rw [← hsort]; exact hlo
      · rw [← hsort]; exact hhi

/-- Witness for C10: the full buffer `100, ..., 199` receives a reconfiguration
event; the reduction runs, the window closes and the context is pending. -/
theorem reconfig_mid_collection_witness :
    ∃ g1 ns1, netlink_recv_msg g_clear ns_ramp (ev_at 1 0 "50000" 1) = some (g1, ns1) ∧
      ns1.reconfiguration_trigger_time_ms = cur_time_ms (ev_at 1 0 "50000" 1) ∧
      0 < ns1.reconfiguration_trigger_time_ms ∧
      ns1.min_rtt_fluctuation_collection = false ∧
      ns1.reconfiguration_min_rtt = 105 ∧ ns1.reconfiguration_max_rtt = 195 := by
  obtain ⟨g1, ns1, h1, h2, h3, _, _, _, h5⟩ := reconfig_mid_collection g_clear ns_ramp
    (ev_at 1 0 "50000" 1) 50000 (by decide) (by decide) (by decide) (by decide) (by decide)
    (by decide)
  obtain ⟨h6, _, _, h7⟩ := h5 (by decide)
  obtain ⟨_, hlo, hhi⟩ := h7 (List.range' 100 100) (List.pairwise_le_range' 100 100)
    (List.Perm.refl _)
  have e5 : (List.range' 100 100)[5]? = some 105 := by decide
  have e95 : (List.range' 100 100)[95]? = some 195 := by decide
  exact ⟨g1, ns1, h1, h2, h3, h6, Option.some.inj (hlo.symm.trans e5),
    Option.some.inj (hhi.symm.trans e95)⟩

/-- C11: for every context with `1 ≤ rtt_sample_count ≤ 100` whose samples are
`u32` values, and percentiles `low ≤ high < 100`, the reducer returns with
`reconfiguration_min_rtt ≤ reconfiguration_max_rtt`, so the `u32` subtraction
does not wrap and `min_rtt_fluctuation` is the mathematical difference; and when
`rtt_sample_count = 0` the reducer returns with `reconfiguration_min_rtt`,
`reconfiguration_max_rtt` and `min_rtt_fluctuation` at their prior values. -/
theorem mpf_ordered_bounds (g : Globals) (ns : leocc_nl_ns) (low high : Nat)
    (hlen : ns.rtt_samples.length = RTT_SAMPLE_MAX) :
    (1 ≤ ns.rtt_sample_count → ns.rtt_sample_count ≤ 100 → low ≤ high → high < 100 →
      (∀ x ∈ ns.rtt_samples, x ≤ U32_MAX) →
      ∃ g1 ns1, mpf g ns low high = some (g1, ns1) ∧
        ns1.reconfiguration_min_rtt ≤ ns1.reconfiguration_max_rtt ∧
        g1.min_rtt_fluctuation = u32_sub ns1.reconfiguration_max_rtt ns1.reconfiguration_min_rtt ∧
        g1.min_rtt_fluctuation = ns1.reconfiguration_max_rtt - ns1.reconfiguration_min_rtt) ∧
    (ns.rtt_sample_count = 0 →
      ∃ g1 ns1, mpf g ns low high = some (g1, ns1) ∧
        ns1.reconfiguration_min_rtt = ns.reconfiguration_min_rtt ∧
        ns1.reconfiguration_max_rtt = ns.reconfiguration_max_rtt ∧
        g1.min_rtt_fluctuation = g.min_rtt_fluctuation) := by
  constructor
  · intro h1 h2 hlh hh hu
    obtain ⟨lo, hi, hlo, hhi, hm⟩ := mpf_some g ns low high h1 h2 (by rw [hlen]; exact h2)
      (lt_of_le_of_lt hlh hh) hh
    have hle : lo ≤ hi := sorted_getElem?_le _ _ _ lo hi (sort_sorted _)
      (Nat.div_le_div_right (Nat.mul_le_mul_left _ hlh)) hlo hhi
    have hb : hi ≤ U32_MAX := by
      obtain ⟨hlt, rfl⟩ := List.getElem?_eq_some_iff.mp hhi
      exact hu _ (sort_mem_take ns _ (List.getElem_mem hlt))
    exact ⟨_, _, hm, hle, rfl, u32_sub_of_le hi lo hle hb⟩
  · intro h0
    exact ⟨g, { ns with min_rtt_fluctuation_collection := false }, by simp [mpf, h0],
      rfl, rfl, rfl⟩

/-- Witness for C11: the full buffer `100, ..., 199` with bounds `(5, 95)`. -/
theorem mpf_ordered_bounds_witness :
    ∃ g1 ns1, mpf g_clear ns_ramp 5 95 = some (g1, ns1) ∧
      ns1.reconfiguration_min_rtt ≤ ns1.reconfiguration_max_rtt ∧
      g1.min_rtt_fluctuation = u32_sub ns1.reconfiguration_max_rtt ns1.reconfiguration_min_rtt ∧
      g1.min_rtt_fluctuation = ns1.reconfiguration_max_rtt - ns1.reconfiguration_min_rtt :=
  (mpf_ordered_bounds g_clear ns_ramp 5 95 (by decide)).1 (by decide) (by decide) (by decide)
    (by decide) (by decide)

/-- Counterexample for C12: the reducer is called on a collecting context with
an empty buffer. It clears the collection flag before it tests the count, so
the context does not stay unchanged. -/
theorem mpf_empty_counterexample :
    ns_collecting.rtt_sample_count = 0 ∧
    ns_collecting.min_rtt_fluctuation_collection = true ∧
    mpf g_clear ns_collecting 5 95
      = some (g_clear, { ns_collecting with min_rtt_fluctuation_collection := false }) ∧
    mpf g_clear ns_collecting 5 95 ≠ some (g_clear, ns_collecting) := by
  decide

/-- C12, amended: for every context with `rtt_sample_count = 0` and every pair
of percentiles, the reducer returns, leaves the global state unchanged and
leaves every field of the context unchanged except the collection flag, which it
sets to false; on a context that is not collecting it changes nothing. -/
theorem mpf_empty (g : Globals) (ns : leocc_nl_ns) (low high : Nat)
    (h0 : ns.rtt_sample_count = 0) :
    mpf g ns low high = some (g, { ns with min_rtt_fluctuation_collection := false }) ∧
    (ns.min_rtt_fluctuation_collection = false → mpf g ns low high = some (g, ns)) := by
  have h : mpf g ns low high = some (g, { ns with min_rtt_fluctuation_collection := false }) := by
    simp [mpf, h0]
  refine ⟨h, fun hc => ?_⟩
  rw [h, ← hc]

/-- Witness for C12: the reducer on a freshly initialised context. -/
theorem mpf_empty_witness :
    mpf g_clear ns_fresh 5 95 = some (g_clear, ns_fresh) :=
  (mpf_empty g_clear ns_fresh 5 95 (by decide)).2 (by decide)

/-- C13: for every context with `collecting = true` and `rtt_sample_count = 100`
and every non-reconfiguration event whose text parses, the handler runs the
reduction with bounds `(5, 95)` over the hundred stored samples:
`reconfiguration_min_rtt = s[5]`, `reconfiguration_max_rtt = s[95]` for the
ascending rearrangement `s` of the buffer, `min_rtt_fluctuation` is their `u32`
difference (the plain difference when the samples are `u32` values), the
collection flag is cleared and the trigger time is 0; the value of the event is
not stored: the count stays 100 and the buffer afterwards is `s`. -/
theorem buffer_full_step (g : Globals) (ns : leocc_nl_ns) (data : rtt_data) (v : Nat)
    (s : List Nat)
    (hlen : ns.rtt_samples.length = RTT_SAMPLE_MAX)
    (hc : ns.min_rtt_fluctuation_collection = true)
    (hn : ns.rtt_sample_count = 100)
    (hr : data.is_reconfig ≠ 1)
    (hp : kstrtouint (rtt_text data) = some v)
    (hs : s.Sorted (· ≤ ·)) (hperm : s.Perm ns.rtt_samples) :
    ∃ g1 ns1, netlink_recv_msg g ns data = some (g1, ns1) ∧
      s[5]? = some ns1.reconfiguration_min_rtt ∧
      s[95]? = some ns1.reconfiguration_max_rtt ∧
      ns1.reconfiguration_min_rtt ≤ ns1.reconfiguration_max_rtt ∧
      g1.min_rtt_fluctuation
        = u32_sub ns1.reconfiguration_max_rtt ns1.reconfiguration_min_rtt ∧
      ((∀ x ∈ ns.rtt_samples, x ≤ U32_MAX) →
        g1.min_rtt_fluctuation = ns1.reconfiguration_max_rtt - ns1.reconfiguration_min_rtt) ∧
      ns1.min_rtt_fluctuation_collection = false ∧
      ns1.reconfiguration_trigger_time_ms = 0 ∧
      ns1.rtt_sample_count = 100 ∧
      ns1.rtt_samples = s := by
  obtain ⟨lo, hi, hlo, hhi, hstep⟩ := recv_full_reduce g ns data v hc hlen hn hp
  rw [handle_reconfig_of_ne _ _ _ _ hr] at hstep
  have htake : ns.rtt_samples.take ns.rtt_sample_count = ns.rtt_samples := by
    rw [hn]; exact List.take_of_length_le (by rw [hlen]; exact Nat.le_refl _)
  have hdrop : ns.rtt_samples.drop ns.rtt_sample_count = [] := by
    rw [hn]; exact List.drop_of_length_le (by rw [hlen]; exact Nat.le_refl _)
  rw [htake, sort_eq_of_sorted_perm s _ hs hperm] at hlo hhi
  rw [htake, hdrop, sort_eq_of_sorted_perm s _ hs hperm, List.append_nil] at hstep
  have hle : lo ≤ hi := sorted_getElem?_le s 5 95 lo hi hs (by decide) hlo hhi
  refine ⟨_, _, hstep, hlo, hhi, hle, rfl, ?_, rfl, rfl, hn, rfl⟩
  intro hu
  have hb : hi ≤ U32_MAX := by
    obtain ⟨hlt, rfl⟩ := List.getElem?_eq_some_iff.mp hhi
    exact hu _ (hperm.mem_iff.mp (List.getElem_mem hlt))
  exact u32_sub_of_le hi lo hle hb

/-- Witness for C13: the full buffer `100, ..., 199` receives a sample event. -/
theorem buffer_full_step_witness :
    ∃ g1 ns1, netlink_recv_msg g_clear ns_ramp (ev_at 1 0 "700" 0) = some (g1, ns1) ∧
      ns1.reconfiguration_min_rtt = 105 ∧ ns1.reconfiguration_max_rtt = 195 ∧
      g1.min_rtt_fluctuation = 90 ∧
      ns1.min_rtt_fluctuation_collection = false ∧
      ns1.reconfiguration_trigger_time_ms = 0 ∧
      ns1.rtt_sample_count = 100 ∧ ns1.rtt_samples = List.range' 100 100 := by
  obtain ⟨g1, ns1, hstep, hlo, hhi, _, _, hf, hc, ht, hn, hb⟩ :=
    buffer_full_step g_clear ns_ramp (ev_at 1 0 "700" 0) 700 (List.range' 100 100)
      (by decide) (by decide) (by decide) (by decide) (by decide)
      (List.pairwise_le_range' 100 100) (List.Perm.refl _)
  have h5 : (List.range' 100 100)[5]? = some 105 := by decide
  have h95 : (List.range' 100 100)[95]? = some 195 := by decide
  have e1 : ns1.reconfiguration_min_rtt = 105 := Option.some.inj (hlo.symm.trans h5)
  have e2 : ns1.reconfiguration_max_rtt = 195 := Option.some.inj (hhi.symm.trans h95)
  exact ⟨g1, ns1, hstep, e1, e2, by rw [hf (by decide), e1, e2], hc, ht, hn, hb⟩

/-- C16: for every context at the start of a collection window
(`collecting = true`, `rtt_sample_count = 0`) and every finite sequence of
events, reconfiguration or not and with any timestamps, in which fewer than one
hundred events carry a parseable text, the handler returns on the whole
sequence, the context still collects afterwards and no reduction has run:
`reconfiguration_min_rtt`, `reconfiguration_max_rtt` and the global
`min_rtt_fluctuation` are unchanged. -/
theorem no_partial_flush (g : Globals) (ns : leocc_nl_ns) (evs : List rtt_data)
    (hlen : ns.rtt_samples.length = RTT_SAMPLE_MAX)
    (hc : ns.min_rtt_fluctuation_collection = true)
    (h0 : ns.rtt_sample_count = 0)
    (hlt : evs.countP (fun d => (kstrtouint (rtt_text d)).isSome) < 100) :
    ∃ g1 ns1, run g ns evs = some (g1, ns1) ∧
      ns1.min_rtt_fluctuation_collection = true ∧
      ns1.reconfiguration_min_rtt = ns.reconfiguration_min_rtt ∧
      ns1.reconfiguration_max_rtt = ns.reconfiguration_max_rtt ∧
      g1.min_rtt_fluctuation = g.min_rtt_fluctuation := by
  obtain ⟨g1, ns1, hrun, h1, _, _, h4, h5, h6⟩ := run_no_flush evs g ns hc hlen
    (by rw [h0]; unfold RTT_SAMPLE_MAX; omega)
  exact ⟨g1, ns1, hrun, h1, h4, h5, h6⟩

/-- Witness for C16: ninety-nine samples interleaved with an unparseable text
and an unparseable reconfiguration event. -/
theorem no_partial_flush_witness :
    ∃ g1 ns1, run g_clear ns_collecting
        (ev_at 1 0 "abc" 1 :: List.replicate 99 (ev_at 2 0 "700" 0) ++ [ev_at 3 0 "x" 0])
        = some (g1, ns1) ∧
      ns1.min_rtt_fluctuation_collection = true ∧
      ns1.reconfiguration_min_rtt = ns_collecting.reconfiguration_min_rtt ∧
      ns1.reconfiguration_max_rtt = ns_collecting.reconfiguration_max_rtt ∧
      g1.min_rtt_fluctuation = g_clear.min_rtt_fluctuation :=
  no_partial_flush g_clear ns_collecting
    (ev_at 1 0 "abc" 1 :: List.replicate 99 (ev_at 2 0 "700" 0) ++ [ev_at 3 0 "x" 0])
    (by decide) (by decide) (by decide) (by decide)

/-- C17: in every state reached from a freshly initialised context by any
sequence of events the running-extrema property `extrema_inv` holds: with
`rtt_sample_count > 0` the local minimum is the least and the local maximum the
greatest of the first `rtt_sample_count` entries of `rtt_samples`, and with
`rtt_sample_count = 0` they are `U32_MAX` and 0; and the reducer, called on such
a state, returns a state on which the property still holds. -/
theorem running_extrema (ns0 : leocc_nl_ns) (sk : Nat) (g : Globals) (evs : List rtt_data)
    (hlen : ns0.rtt_samples.length = RTT_SAMPLE_MAX) (hsk : sk ≠ 0) :
    ∃ g1 ns1, run g (leocc_nl_init_net ns0 sk).2 evs = some (g1, ns1) ∧
      extrema_inv ns1 ∧
      ∀ (g2 : Globals) (low high : Nat), low < 100 → high < 100 →
        ∃ g3 ns3, mpf g2 ns1 low high = some (g3, ns3) ∧ extrema_inv ns3 := by
  obtain ⟨g1, ns1, hrun, hw, hi⟩ := run_extrema_inv evs g _ (init_wf ns0 sk hlen hsk)
    (init_extrema_inv ns0 sk hsk)
  refine ⟨g1, ns1, hrun, hi, fun g2 low high hl hh => ?_⟩
  obtain ⟨g3, ns3, hm, _, hi3⟩ := mpf_extrema_inv g2 ns1 low high hw hi hl hh
  exact ⟨g3, ns3, hm, hi3⟩

/-- Witness for C17: a trigger with settle time zero followed by the samples
900, 300 and 500 leaves local minimum 300 and local maximum 900. -/
theorem running_extrema_witness :
    (∃ g1 ns1, run g_clear (leocc_nl_init_net ns_zero 1).2
        [ev_at 1 0 "0" 1, ev_at 1 1 "900" 0, ev_at 1 2 "300" 0, ev_at 1 3 "500" 0]
        = some (g1, ns1) ∧ extrema_inv ns1) ∧
    (run g_clear (leocc_nl_init_net ns_zero 1).2
        [ev_at 1 0 "0" 1, ev_at 1 1 "900" 0, ev_at 1 2 "300" 0, ev_at 1 3 "500" 0]).map
      (fun r => (r.2.rtt_sample_count, r.2.local_rtt_sample_min, r.2.local_rtt_sample_max))
      = some (3, 300, 900) := by
  obtain ⟨g1, ns1, hrun, hi, _⟩ := running_extrema ns_zero 1 g_clear
    [ev_at 1 0 "0" 1, ev_at 1 1 "900" 0, ev_at 1 2 "300" 0, ev_at 1 3 "500" 0]
    (by decide) (by decide)
  exact ⟨⟨g1, ns1, hrun, hi⟩, by decide⟩

/-- Counterexample for C18: a fresh context that received a reconfiguration event
at `T = 2^64 - 100` ms has trigger time `T` (the state `ns_late`) and the global
trigger is set. For a sample event at `t = T` we have `t < T + 200`, so the
claim keeps the flag, yet the handler clears it, because the sum it compares
with wraps to 100. -/
theorem expiry_exact_counterexample :
    run g_clear ns_fresh [ev_at 18446744073709551 516 "150000" 1] = some (g_set, ns_late) ∧
    g_set.global_reconfiguration_trigger = true ∧
    (ev_at 18446744073709551 516 "700" 0).is_reconfig ≠ 1 ∧
    ¬ (0 < ns_late.reconfiguration_trigger_time_ms ∧
        ns_late.reconfiguration_trigger_time_ms + 200
          ≤ cur_time_ms (ev_at 18446744073709551 516 "700" 0)) ∧
    (netlink_recv_msg g_set ns_late (ev_at 18446744073709551 516 "700" 0)).map
        (fun r => r.1.global_reconfiguration_trigger) = some false := by
  decide

/-- C18, amended: for every (well-formed) context with trigger time `T` at the
start of the event, every global state and every non-reconfiguration event with
timestamp `t`, the handler returns and the global trigger is true afterwards if
and only if it was true before and not (`T > 0` and `t ≥ (T + 200) mod 2^64`),
the `u64` sum the handler computes, which is `T + 200` whenever
`T + 200 < 2^64`; in particular a context whose trigger time is 0 leaves the
flag as it was. Settle delay and collection flag do not occur in the
condition. -/
theorem expiry_exact (g : Globals) (ns : leocc_nl_ns) (data : rtt_data)
    (hw : wf ns) (hr : data.is_reconfig ≠ 1) :
    ∃ g1 ns1, netlink_recv_msg g ns data = some (g1, ns1) ∧
      (g1.global_reconfiguration_trigger = true ↔
        (g.global_reconfiguration_trigger = true ∧
          ¬ (0 < ns.reconfiguration_trigger_time_ms ∧
            u64_add ns.reconfiguration_trigger_time_ms 200 ≤ cur_time_ms data))) ∧
      (ns.reconfiguration_trigger_time_ms = 0 →
        g1.global_reconfiguration_trigger = g.global_reconfiguration_trigger) ∧
      (ns.reconfiguration_trigger_time_ms + 200 < 18446744073709551616 →
        u64_add ns.reconfiguration_trigger_time_ms 200
          = ns.reconfiguration_trigger_time_ms + 200) := by
  obtain ⟨g2, ns2, hrec, _⟩ := record_sample_wf (expire_trigger g ns (cur_time_ms data))
    (start_collection ns (cur_time_ms data)) data (start_collection_wf ns _ hw)
  have hstep := recv_of_record _ _ _ _ _ hrec
  rw [handle_reconfig_of_ne _ _ _ _ hr] at hstep
  have hg2 := record_sample_trigger _ _ _ _ _ hrec
  refine ⟨g2, ns2, hstep, ?_, ?_, fun h => Nat.mod_eq_of_lt h⟩
  · rw [hg2]
    unfold expire_trigger global_reconfiguration_trigger_duration
    by_cases hcond : g.global_reconfiguration_trigger = true ∧
        0 < ns.reconfiguration_trigger_time_ms ∧
        u64_add ns.reconfiguration_trigger_time_ms 200 ≤ cur_time_ms data
    · rw [if_pos hcond]
      constructor
      · intro h; exact absurd h (by simp)
      · intro h; exact absurd hcond.2 h.2
    · rw [if_neg hcond]
      constructor
      · intro h; exact ⟨h, fun h2 => hcond ⟨h, h2⟩⟩
      · intro h; exact h.1
  · intro hT
    rw [hg2]
    unfold expire_trigger
    rw [if_neg (by rw [hT]; simp)]

/-- Witness for C18: with trigger time 1000 the set flag survives an event at
1199 ms and is cleared by an event at 1200 ms. -/
theorem expiry_exact_witness :
    (∃ g1 ns1, netlink_recv_msg { g_clear with global_reconfiguration_trigger := true }
        ns_pending (ev_at 1 199 "700" 0) = some (g1, ns1) ∧
      g1.global_reconfiguration_trigger = true) ∧
    (∃ g1 ns1, netlink_recv_msg { g_clear with global_reconfiguration_trigger := true }
        ns_pending (ev_at 1 200 "700" 0) = some (g1, ns1) ∧
      ¬ g1.global_reconfiguration_trigger = true) := by
  constructor
  · obtain ⟨g1, ns1, hstep, hiff, _, _⟩ := expiry_exact
      { g_clear with global_reconfiguration_trigger := true } ns_pending
      (ev_at 1 199 "700" 0) (by decide) (by decide)
    exact ⟨g1, ns1, hstep, hiff.mpr (by decide)⟩
  · obtain ⟨g1, ns1, hstep, hiff, _, _⟩ := expiry_exact
      { g_clear with global_reconfiguration_trigger := true } ns_pending
      (ev_at 1 200 "700" 0) (by decide) (by decide)
    exact ⟨g1, ns1, hstep, fun h => absurd (hiff.mp h) (by decide)⟩

/-- C19: in every state reached from a freshly initialised context by any
sequence of events, every access to `rtt_samples` made by the handler on the
next event is in bounds: after the collection-start block the count is either
below `RTT_SAMPLE_MAX`, and then the append index is below the array length, or
it equals 100, the only count with which the reducer is reached, and then both
percentile indices `count * 5 / 100` and `count * 95 / 100` (in `u32`) are below
the count and the sorted range lies within the array; so the handler returns a
state on every event, whether or not its text parses. -/
theorem index_safety (ns0 : leocc_nl_ns) (sk : Nat) (g : Globals) (evs : List rtt_data)
    (hlen : ns0.rtt_samples.length = RTT_SAMPLE_MAX) (hsk : sk ≠ 0) :
    ∃ g1 ns1, run g (leocc_nl_init_net ns0 sk).2 evs = some (g1, ns1) ∧
      ∀ (g2 : Globals) (data : rtt_data),
        ((start_collection ns1 (cur_time_ms data)).rtt_sample_count < RTT_SAMPLE_MAX →
          (start_collection ns1 (cur_time_ms data)).rtt_sample_count
            < (start_collection ns1 (cur_time_ms data)).rtt_samples.length) ∧
        (¬ (start_collection ns1 (cur_time_ms data)).rtt_sample_count < RTT_SAMPLE_MAX →
          (start_collection ns1 (cur_time_ms data)).rtt_sample_count = 100 ∧
          (start_collection ns1 (cur_time_ms data)).rtt_sample_count
            ≤ (start_collection ns1 (cur_time_ms data)).rtt_samples.length ∧
          u32_mul (start_collection ns1 (cur_time_ms data)).rtt_sample_count 5 / 100
            < (start_collection ns1 (cur_time_ms data)).rtt_sample_count ∧
          u32_mul (start_collection ns1 (cur_time_ms data)).rtt_sample_count 95 / 100
            < (start_collection ns1 (cur_time_ms data)).rtt_sample_count) ∧
        ∃ g3 ns3, netlink_recv_msg g2 ns1 data = some (g3, ns3) := by
  obtain ⟨g1, ns1, hrun, hw⟩ := run_wf evs g _ (init_wf ns0 sk hlen hsk)
  refine ⟨g1, ns1, hrun, fun g2 data => ?_⟩
  have hws := start_collection_wf ns1 (cur_time_ms data) hw
  obtain ⟨g3, ns3, hstep, _⟩ := recv_wf g2 ns1 data hw
  refine ⟨fun h => by rw [hws.1]; exact h, fun h => ?_, g3, ns3, hstep⟩
  have h100 : (start_collection ns1 (cur_time_ms data)).rtt_sample_count = 100 :=
    Nat.le_antisymm hws.2 (Nat.not_lt.mp h)
  rw [h100]
  exact ⟨rfl, by rw [hws.1]; decide, by decide, by decide⟩

/-- Witness for C19: after a trigger and a hundred samples the buffer is full,
and the handler returns on a further sample and on an unparseable text. -/
theorem index_safety_witness :
    ∃ g1 ns1, run g_clear (leocc_nl_init_net ns_zero 1).2
        (ev_at 1 0 "0" 1 :: List.replicate 100 (ev_at 1 5 "700" 0)) = some (g1, ns1) ∧
      (∃ g3 ns3, netlink_recv_msg g1 ns1 (ev_at 1 6 "700" 0) = some (g3, ns3)) ∧
      (∃ g3 ns3, netlink_recv_msg g1 ns1 (ev_at 1 6 "abc" 0) = some (g3, ns3)) := by
  obtain ⟨g1, ns1, hrun, hall⟩ := index_safety ns_zero 1 g_clear
    (ev_at 1 0 "0" 1 :: List.replicate 100 (ev_at 1 5 "700" 0)) (by decide) (by decide)
  exact ⟨g1, ns1, hrun, (hall g1 (ev_at 1 6 "700" 0)).2.2, (hall g1 (ev_at 1 6 "abc" 0)).2.2⟩

end LeoCC
